import Mathlib

/-
Verification development for a credal-network propagation engine
(`credal.py`) and a Dempster-Shafer evidence module (`dempster_shafer.py`).

The Python code is shallowly embedded: dictionaries become association
lists (preserving insertion order), float arithmetic becomes exact `Rat`
arithmetic, and a raised exception becomes `Option`/`Except` failure.
-/

namespace Credal

/-- A probability bound pair `(low, high)`. -/
abbrev IVal := Rat × Rat

/-- A marginal: association list from state to `(low, high)`, in dict order. -/
abbrev Marg := List (String × IVal)

/-- A (possibly unnormalized) distribution: association list from state to weight. -/
abbrev PDist := List (String × Rat)

/-- A credal table: association list from parent-state assignment to a marginal. -/
abbrev CTable := List (List String × Marg)

/-- A node of the credal network: name, ordered parent list, credal table.
Parent references are embedded structurally; since the Python engine has no
memoization, unfolding the parent DAG into a tree preserves its semantics. -/
inductive CNode where
  | mk (name : String) (parents : List CNode) (table : CTable)

def CNode.name : CNode → String
  | .mk nm _ _ => nm

def CNode.parents : CNode → List CNode
  | .mk _ ps _ => ps

def CNode.table : CNode → CTable
  | .mk _ _ t => t

/-- `itertools.product` over a list of lists (first factor varies slowest). -/
def listProd {α : Type} : List (List α) → List (List α)
  | [] => [[]]
  | xs :: rest => xs.flatMap (fun x => (listProd rest).map (fun ys => x :: ys))

/-- All low/high corner choices of a list of intervals, in `itertools.product`
order: models `product(*[(l, u) for l, u in pm.values()])`. -/
def corners : List IVal → List (List Rat)
  | [] => [[]]
  | iv :: rest =>
      (corners rest).map (fun v => iv.1 :: v) ++ (corners rest).map (fun v => iv.2 :: v)

/-- Pair a corner vector with its states and renormalize when the total is
positive; models lines 64-67 of `credal.py` (the `total > 0` guard). -/
def normalizeCorner (states : List String) (v : List Rat) : PDist :=
  let total := v.sum
  if 0 < total then (states.zip v).map (fun p => (p.1, p.2 / total))
  else states.zip v

/-- The extreme points enumerated for one parent marginal (lines 61-68). -/
def extremePoints (pm : Marg) : List PDist :=
  (corners (pm.map Prod.snd)).map (normalizeCorner (pm.map Prod.fst))

/-- Joint probability of one parent assignment under one choice of parent
extreme distributions (lines 78-80); the dictionary lookups always succeed
on enumerated assignments, so a missing key is rendered as weight 0. -/
def jointProb (combo : List PDist) (asn : List String) : Rat :=
  ((combo.zip asn).map (fun p => ((p.1.lookup p.2).getD 0))).foldl (· * ·) 1

/-- Running bound accumulator: state, running lower, running upper; `none`
models the `float(inf)` / `float(-inf)` sentinels (lines 55-56, 86-87). -/
abbrev BAcc := List (String × Option Rat × Option Rat)

/-- One min/max accumulation step for one node state (lines 84-87); fails
when the credal entry lacks the state (a Python `KeyError`). -/
def updateState (prob : Rat) (entry : Marg) :
    String × Option Rat × Option Rat → Option (String × Option Rat × Option Rat)
  | (s, lo, hi) => do
    let iv ← entry.lookup s
    pure (s,
      some (match lo with | none => prob * iv.1 | some x => min x (prob * iv.1)),
      some (match hi with | none => prob * iv.2 | some x => max x (prob * iv.2)))

/-- The `for state in node_states` update loop of lines 84-87 over the
whole accumulator. -/
def updAll (prob : Rat) (entry : Marg) : BAcc → Option BAcc
  | [] => some []
  | e :: es => do
      let e' ← updateState prob entry e
      let es' ← updAll prob entry es
      pure (e' :: es')

/-- Process all node states for one (combo, assignment) pair (lines 82-87);
fails when the table lacks the assignment key (a Python `KeyError`). -/
def stepPair (t : CTable) (acc : BAcc) (pr : List PDist × List String) : Option BAcc := do
  let entry ← t.lookup pr.2
  updAll (jointProb pr.1 pr.2) entry acc

/-- The full enumeration of lines 75-77: all combinations of parent extreme
distributions, each with all joint parent assignments. -/
def allPairs (opts : List (List PDist)) : List (List PDist × List String) :=
  (listProd opts).flatMap (fun combo =>
    (listProd (combo.map (fun d => d.map Prod.fst))).map (fun asn => (combo, asn)))

/-- The accumulation loop over all enumerated pairs (lines 75-87). -/
def foldSteps (t : CTable) : BAcc → List (List PDist × List String) → Option BAcc
  | acc, [] => some acc
  | acc, pr :: prs => do
      let acc' ← stepPair t acc pr
      foldSteps t acc' prs

mutual

/-- `CredalNetwork.compute_marginal_extreme` (lines 38-104), with prints
dropped and each possible `KeyError` rendered as `none`. -/
def computeMarginal : CNode → Option Marg
  | .mk _ [] t => t.lookup []
  | .mk _ (p :: ps) t => do
      let pms ← computeMarginalList (p :: ps)
      let firstRow ← t.head?
      let nodeStates := firstRow.2.map Prod.fst
      let init : BAcc := nodeStates.map (fun s => (s, none, none))
      let final ← foldSteps t init (allPairs (pms.map extremePoints))
      pure (final.map (fun r => (r.1, (r.2.1.getD 0, r.2.2.getD 1))))

/-- The recursive parent-marginal computations of line 50, in list order. -/
def computeMarginalList : List CNode → Option (List Marg)
  | [] => pure []
  | n :: ns => do
      let m ← computeMarginal n
      let ms ← computeMarginalList ns
      pure (m :: ms)

end

/-- `CredalNetwork.propagate` (lines 109-121): marginals for every registry
node in order, with no cross-node caching. -/
def propagate : List CNode → Option (List (String × Marg))
  | [] => some []
  | n :: ns => do
      let m ← computeMarginal n
      let rest ← propagate ns
      pure ((n.name, m) :: rest)

mutual

/-- Number of invocations of `compute_marginal_extreme` on nodes with the
given name during one top-level call on a node: one for the node itself
plus, when it has parents, one recursive count per parent (line 50). -/
def countCalls (target : String) : CNode → Nat
  | .mk nm ps _ => (if nm = target then 1 else 0) + countCallsList target ps

def countCallsList (target : String) : List CNode → Nat
  | [] => 0
  | n :: ns => countCalls target n + countCallsList target ns

end

/-- Number of invocations of `compute_marginal_extreme` on nodes with the
given name during one `propagate()` call (lines 109-113). -/
def propagateCalls (nodes : List CNode) (target : String) : Nat :=
  (nodes.map (countCalls target)).sum

/-! ### The medical diagnosis example network (`medical_diagnosis_example`) -/

def fluNode : CNode := .mk "Flu" []
  [([], [("Present", (1/20, 1/10)), ("Absent", (9/10, 19/20))])]

def coldNode : CNode := .mk "Cold" []
  [([], [("Present", (1/10, 1/5)), ("Absent", (4/5, 9/10))])]

def feverTable : CTable :=
  [ (["Present", "Present"], [("Present", (9/10, 1)), ("Absent", (0, 1/10))]),
    (["Present", "Absent"], [("Present", (4/5, 19/20)), ("Absent", (1/20, 1/5))]),
    (["Absent", "Present"], [("Present", (7/10, 17/20)), ("Absent", (3/20, 3/10))]),
    (["Absent", "Absent"], [("Present", (0, 1/10)), ("Absent", (9/10, 1))]) ]

def feverNode : CNode := .mk "Fever" [fluNode, coldNode] feverTable

def coughTable : CTable :=
  [ (["Present", "Present"], [("Present", (4/5, 19/20)), ("Absent", (1/20, 1/5))]),
    (["Present", "Absent"], [("Present", (3/5, 4/5)), ("Absent", (1/5, 2/5))]),
    (["Absent", "Present"], [("Present", (1/2, 7/10)), ("Absent", (3/10, 1/2))]),
    (["Absent", "Absent"], [("Present", (0, 1/10)), ("Absent", (9/10, 1))]) ]

def coughNode : CNode := .mk "Cough" [fluNode, coldNode] coughTable

/-- The registry built by `medical_diagnosis_example`, in insertion order. -/
def medicalNodes : List CNode := [fluNode, coldNode, feverNode, coughNode]

/-! ### Named extreme points of the two medical root marginals -/

def fluEPa : PDist := [("Present", 1/19), ("Absent", 18/19)]

def fluEPb : PDist := [("Present", 1/20), ("Absent", 19/20)]

def fluEPc : PDist := [("Present", 1/10), ("Absent", 9/10)]

def fluEPd : PDist := [("Present", 2/21), ("Absent", 19/21)]

def coldEPa : PDist := [("Present", 1/9), ("Absent", 8/9)]

def coldEPb : PDist := [("Present", 1/10), ("Absent", 9/10)]

def coldEPc : PDist := [("Present", 1/5), ("Absent", 4/5)]

def coldEPd : PDist := [("Present", 2/11), ("Absent", 9/11)]

/-- A single-state root used by the missing-entry witness. -/
def rootU : CNode := .mk "U" [] [([], [("u1", (1, 1))])]

/-- A table whose only key does not match any reachable parent assignment. -/
def brokenTable : CTable := [(["other"], [("x", (0, 1))])]

/-! ### A 3-node chain with point-valued tables (spec section 8, two-level chain) -/

def chainA : CNode := .mk "A" [] [([], [("a1", (1/2, 1/2)), ("a2", (1/2, 1/2))])]

def chainBTable : CTable :=
  [ (["a1"], [("b1", (1, 1)), ("b2", (0, 0))]),
    (["a2"], [("b1", (0, 0)), ("b2", (1, 1))]) ]

def chainB : CNode := .mk "B" [chainA] chainBTable

def chainCTable : CTable :=
  [ (["b1"], [("c1", (1, 1)), ("c2", (0, 0))]),
    (["b2"], [("c1", (0, 0)), ("c2", (1, 1))]) ]

def chainC : CNode := .mk "C" [chainB] chainCTable

/-- A chain root with every interval of `chainA` widened. -/
def chainA2 : CNode := .mk "A" [] [([], [("a1", (2/5, 3/5)), ("a2", (2/5, 3/5))])]

/-- The chain middle node conditioned on the widened root. -/
def chainB2 : CNode := .mk "B" [chainA2] chainBTable


/-! ### Validity of credal tables (spec section 3 invariants) -/

/-- A bound pair is valid when `0 ≤ low ≤ high ≤ 1`. -/
def ivalValid (iv : IVal) : Prop := 0 ≤ iv.1 ∧ iv.1 ≤ iv.2 ∧ iv.2 ≤ 1

/-- Every bound pair of a marginal row is valid and its states are distinct. -/
def margValid (m : Marg) : Prop := (∀ p ∈ m, ivalValid p.2) ∧ (m.map Prod.fst).Nodup

/-- Every row of a credal table is valid. -/
def tableValid (t : CTable) : Prop := ∀ r ∈ t, margValid r.2

mutual

/-- A node and all of its ancestors carry valid credal tables. -/
def nodeValid : CNode → Prop
  | .mk _ ps t => tableValid t ∧ nodesValid ps

def nodesValid : List CNode → Prop
  | [] => True
  | n :: ns => nodeValid n ∧ nodesValid ns

end

/-! ### Characterization helpers for the accumulation loop -/

/-- Min-accumulation against the `inf` sentinel of line 86. -/
def minOpt (o : Option Rat) (c : Rat) : Rat :=
  match o with
  | none => c
  | some x => min x c

/-- Max-accumulation against the `-inf` sentinel of line 87. -/
def maxOpt (o : Option Rat) (c : Rat) : Rat :=
  match o with
  | none => c
  | some x => max x c

/-- The scaled lower endpoint contributed by one enumerated pair at one node
state (total function; coincides with the loop whenever its lookups succeed). -/
def contribLow (t : CTable) (s : String) (pr : List PDist × List String) : Rat :=
  jointProb pr.1 pr.2 * ((((t.lookup pr.2).getD []).lookup s).getD (0, 1)).1

/-- The scaled upper endpoint contributed by one enumerated pair at one node state. -/
def contribHigh (t : CTable) (s : String) (pr : List PDist × List String) : Rat :=
  jointProb pr.1 pr.2 * ((((t.lookup pr.2).getD []).lookup s).getD (0, 1)).2

/-- The running lower bound of one node state across a list of pairs. -/
def foldLow (t : CTable) (s : String) (o : Option Rat)
    (prs : List (List PDist × List String)) : Option Rat :=
  prs.foldl (fun o pr => some (minOpt o (contribLow t s pr))) o

/-- The running upper bound of one node state across a list of pairs. -/
def foldHigh (t : CTable) (s : String) (o : Option Rat)
    (prs : List (List PDist × List String)) : Option Rat :=
  prs.foldl (fun o pr => some (maxOpt o (contribHigh t s pr))) o

/-! ### Interval widening (spec section 8, monotonic tightening) -/

/-- The second bound pair contains the first. -/
def ivalWide (iv iv' : IVal) : Prop := iv'.1 ≤ iv.1 ∧ iv.2 ≤ iv'.2

/-- Same states in the same order, each bound pair widened. -/
def margWide (m m' : Marg) : Prop :=
  List.Forall₂ (fun p q => p.1 = q.1 ∧ ivalWide p.2 q.2) m m'

/-- Same assignment keys in the same order, each row widened. -/
def tableWide (t t' : CTable) : Prop :=
  List.Forall₂ (fun r r' => r.1 = r'.1 ∧ margWide r.2 r'.2) t t'

mutual

/-- Same graph structure and names, every table of the node and of all of
its ancestors widened entrywise. -/
def nodeWide : CNode → CNode → Prop
  | .mk nm ps t, .mk nm' ps' t' => nm = nm' ∧ tableWide t t' ∧ nodesWide ps ps'

def nodesWide : List CNode → List CNode → Prop
  | [], [] => True
  | n :: ns, n' :: ns' => nodeWide n n' ∧ nodesWide ns ns'
  | _, _ => False

end

/-- The renormalization of one corner weight under the `total > 0` guard. -/
def wguard (x total : Rat) : Rat := if 0 < total then x / total else x

/-- The corner vector that minimizes the renormalized weight of state `s`:
its own lower endpoint against every other upper endpoint. -/
def lowFocus (pm : Marg) (s : String) : List Rat :=
  pm.map (fun p => if p.1 = s then p.2.1 else p.2.2)

/-- The corner vector that maximizes the renormalized weight of state `s`:
its own upper endpoint against every other lower endpoint. -/
def highFocus (pm : Marg) (s : String) : List Rat :=
  pm.map (fun p => if p.1 = s then p.2.2 else p.2.1)

/-- For each parent, the extreme distribution built from the corner that
minimizes the weight of the assigned state. -/
def focusComboLow : List Marg → List String → List PDist
  | pm :: pms, a :: asn =>
      normalizeCorner (pm.map Prod.fst) (lowFocus pm a) :: focusComboLow pms asn
  | _, _ => []

/-- For each parent, the extreme distribution built from the corner that
maximizes the weight of the assigned state. -/
def focusComboHigh : List Marg → List String → List PDist
  | pm :: pms, a :: asn =>
      normalizeCorner (pm.map Prod.fst) (highFocus pm a) :: focusComboHigh pms asn
  | _, _ => []

end Credal

namespace DS

/-- A mass function: association list from a tuple of labels to a weight. -/
abbrev Mass := List (List String × Rat)

/-- Insert a label into a strictly sorted list of labels, dropping duplicates. -/
def insertSorted (x : String) : List String → List String
  | [] => [x]
  | y :: ys => if x = y then y :: ys else if x < y then x :: y :: ys else y :: insertSorted x ys

/-- The sorted list of distinct elements: models `tuple(sorted(set(l)))`. -/
def sortedSet (l : List String) : List String := l.foldr insertSorted []

/-- `tuple(sorted(set(k1) & set(k2)))` (line 26 of `dempster_shafer.py`). -/
def interKey (k1 k2 : List String) : List String :=
  sortedSet (k1.filter (fun x => k2.contains x))

/-- `combined[k] = combined.get(k, 0.0) + v`: dict upsert keeping key order. -/
def upsert (l : Mass) (k : List String) (v : Rat) : Mass :=
  match l with
  | [] => [(k, v)]
  | (k', v') :: rest => if k' = k then (k', v' + v) :: rest else (k', v') :: upsert rest k v

/-- `product(m1.items(), m2.items())`: all pairs, first factor slowest. -/
def pairList (m1 m2 : Mass) : List ((List String × Rat) × (List String × Rat)) :=
  m1.flatMap (fun p1 => m2.map (fun p2 => (p1, p2)))

/-- One iteration of the combination loop (lines 25-30): an empty
intersection adds to the conflict, otherwise the product joins `combined`. -/
def combineStep (acc : Mass × Rat) (pr : (List String × Rat) × (List String × Rat)) :
    Mass × Rat :=
  let inter := interKey pr.1.1 pr.2.1
  if inter = [] then (acc.1, acc.2 + pr.1.2 * pr.2.2)
  else (upsert acc.1 inter (pr.1.2 * pr.2.2), acc.2)

/-- The accumulated `(combined, conflict)` state after the loop of lines 25-30. -/
def combineRaw (m1 m2 : Mass) : Mass × Rat :=
  (pairList m1 m2).foldl combineStep ([], 0)

/-- The conflict mass `K` accumulated by `combine_mass`. -/
def conflictOf (m1 m2 : Mass) : Rat := (combineRaw m1 m2).2

/-- `combine_mass` (lines 20-38): normalize by `1 - conflict` when
`conflict < 1`, otherwise raise. -/
def combine_mass (m1 m2 : Mass) : Except String Mass :=
  let r := combineRaw m1 m2
  if r.2 < 1 then .ok (r.1.map (fun p => (p.1, p.2 / (1 - r.2))))
  else .error "Total conflict: cannot combine (K = 1)."

/-- `marginalize_mass` (lines 44-50): project every key and accumulate. -/
def marginalize_mass (m : Mass) (target : List String) : Mass :=
  m.foldl (fun acc p => upsert acc (p.1.filter (fun v => target.contains v)) p.2) []

/-- `belief` (lines 56-63): total mass of subsets of `A`. -/
def belief (m : Mass) (A : List String) : Rat :=
  m.foldl (fun acc p => if p.1.all (fun x => A.contains x) then acc + p.2 else acc) 0

/-- `plausibility` (lines 66-73): total mass of subsets meeting `A`. -/
def plausibility (m : Mass) (A : List String) : Rat :=
  m.foldl (fun acc p => if p.1.any (fun x => A.contains x) then acc + p.2 else acc) 0

/-- Total weight of a mass function. -/
def massSum (m : Mass) : Rat := (m.map Prod.snd).sum

/-- The conflict terms of the combination loop: products of the pairs whose
intersection is empty, in loop order. -/
def conflictTerms (m1 m2 : Mass) : List Rat :=
  ((pairList m1 m2).filter (fun pr => (interKey pr.1.1 pr.2.1).isEmpty)).map
    (fun pr => pr.1.2 * pr.2.2)

/-- The evidence mass for Flu used by `medical_diagnosis_example`. -/
def mFlu : Mass := [(["Flu"], 1/10), (["No Flu"], 8/10), (["Flu", "No Flu"], 1/10)]

end DS

namespace Credal

lemma lookup_mem {α β : Type} [BEq α] [LawfulBEq α] {l : List (α × β)} {k : α} {v : β}
    (h : l.lookup k = some v) : (k, v) ∈ l := by
  rcases List.lookup_eq_some_iff.1 h with ⟨l₁, l₂, rfl, -⟩
  simp

lemma corners_sel : ∀ {ivs : List IVal} {v : List Rat}, v ∈ corners ivs →
    List.Forall₂ (fun x iv => x = iv.1 ∨ x = iv.2) v ivs := by
  intro ivs
  induction ivs with
  | nil =>
      intro v h
      simp [corners] at h
      subst h
      exact .nil
  | cons iv rest ih =>
      intro v h
      simp only [corners, List.mem_append, List.mem_map] at h
      rcases h with ⟨w, hw, rfl⟩ | ⟨w, hw, rfl⟩
      · exact .cons (Or.inl rfl) (ih hw)
      · exact .cons (Or.inr rfl) (ih hw)

lemma sel_corners : ∀ {ivs : List IVal} {v : List Rat},
    List.Forall₂ (fun x iv => x = iv.1 ∨ x = iv.2) v ivs → v ∈ corners ivs := by
  intro ivs v h
  induction h with
  | nil => simp [corners]
  | @cons x iv v' ivs' hx _ ih =>
      simp only [corners, List.mem_append, List.mem_map]
      rcases hx with rfl | rfl
      · exact Or.inl ⟨v', ih, rfl⟩
      · exact Or.inr ⟨v', ih, rfl⟩

lemma corners_length {ivs : List IVal} {v : List Rat} (h : v ∈ corners ivs) :
    v.length = ivs.length :=
  (corners_sel h).length_eq

lemma listProd_sel {α : Type} : ∀ {ls : List (List α)} {c : List α}, c ∈ listProd ls →
    List.Forall₂ (fun x xs => x ∈ xs) c ls := by
  intro ls
  induction ls with
  | nil =>
      intro c h
      simp [listProd] at h
      subst h
      exact .nil
  | cons xs rest ih =>
      intro c h
      simp only [listProd, List.mem_flatMap, List.mem_map] at h
      rcases h with ⟨x, hx, ys, hys, rfl⟩
      exact .cons hx (ih hys)

lemma sel_listProd {α : Type} : ∀ {ls : List (List α)} {c : List α},
    List.Forall₂ (fun x xs => x ∈ xs) c ls → c ∈ listProd ls := by
  intro ls c h
  induction h with
  | nil => simp [listProd]
  | @cons x xs c' ls' hx _ ih =>
      simp only [listProd, List.mem_flatMap, List.mem_map]
      exact ⟨x, hx, c', ih, rfl⟩

lemma allPairs_mem {opts : List (List PDist)} {pr : List PDist × List String}
    (h : pr ∈ allPairs opts) :
    pr.1 ∈ listProd opts ∧ pr.2 ∈ listProd (pr.1.map (fun d => d.map Prod.fst)) := by
  simp only [allPairs, List.mem_flatMap, List.mem_map] at h
  rcases h with ⟨combo, hc, asn, ha, rfl⟩
  exact ⟨hc, ha⟩

lemma mem_allPairs {opts : List (List PDist)} {combo : List PDist} {asn : List String}
    (hc : combo ∈ listProd opts)
    (ha : asn ∈ listProd (combo.map (fun d => d.map Prod.fst))) :
    (combo, asn) ∈ allPairs opts := by
  simp only [allPairs, List.mem_flatMap, List.mem_map]
  exact ⟨combo, hc, asn, ha, rfl⟩

lemma sum_zero_of_nonneg : ∀ {v : List Rat}, (∀ x ∈ v, 0 ≤ x) → v.sum ≤ 0 →
    ∀ x ∈ v, x = 0 := by
  intro v
  induction v with
  | nil => intro _ _ x hx; cases hx
  | cons y ys ih =>
      intro hpos hsum x hx
      have hy : 0 ≤ y := hpos y (by simp)
      have hys : 0 ≤ ys.sum := List.sum_nonneg (fun z hz => hpos z (by simp [hz]))
      have hsum' : y + ys.sum ≤ 0 := by simpa [List.sum_cons] using hsum
      have hy0 : y = 0 := le_antisymm (by linarith) hy
      rcases hx with _ | hx
      · exact hy0
      · exact ih (fun z hz => hpos z (by simp [hz])) (by linarith) x (by assumption)

lemma normalizeCorner_keys {states : List String} {v : List Rat}
    (hlen : states.length = v.length) :
    (normalizeCorner states v).map Prod.fst = states := by
  unfold normalizeCorner
  by_cases h : 0 < v.sum
  · simp only [h, if_true, List.map_map]
    have : (Prod.fst ∘ fun p : String × Rat => (p.1, p.2 / v.sum)) = Prod.fst := by
      funext p; rfl
    rw [this]
    exact List.map_fst_zip states v (le_of_eq hlen)
  · simp only [h, if_false]
    exact List.map_fst_zip states v (le_of_eq hlen)

lemma normalizeCorner_bounds {states : List String} {v : List Rat}
    (hpos : ∀ x ∈ v, 0 ≤ x) :
    ∀ q ∈ normalizeCorner states v, 0 ≤ q.2 ∧ q.2 ≤ 1 := by
  intro q hq
  unfold normalizeCorner at hq
  by_cases h : 0 < v.sum
  · simp only [h, if_true, List.mem_map] at hq
    rcases hq with ⟨p, hp, rfl⟩
    have hv : p.2 ∈ v := (List.of_mem_zip hp).2
    have h0 : 0 ≤ p.2 := hpos _ hv
    have hle : p.2 ≤ v.sum := List.single_le_sum hpos _ hv
    constructor
    · positivity
    · exact (div_le_one h).2 hle
  · simp only [h, if_false] at hq
    have hv : q.2 ∈ v := (List.of_mem_zip hq).2
    have h0 : q.2 = 0 := sum_zero_of_nonneg hpos (le_of_not_lt h) _ hv
    simp [h0]

lemma extremePoints_keys {pm : Marg} {d : PDist} (hd : d ∈ extremePoints pm) :
    d.map Prod.fst = pm.map Prod.fst := by
  simp only [extremePoints, List.mem_map] at hd
  rcases hd with ⟨v, hv, rfl⟩
  have := corners_length hv
  exact normalizeCorner_keys (by simp [this])

lemma forall₂_mem_left {α β : Type} {R : α → β → Prop} {l₁ : List α} {l₂ : List β}
    (h : List.Forall₂ R l₁ l₂) : ∀ {x}, x ∈ l₁ → ∃ y ∈ l₂, R x y := by
  induction h with
  | nil => intro x hx; cases hx
  | @cons a b t₁ t₂ hab _ ih =>
      intro x hx
      rcases List.mem_cons.1 hx with rfl | hx
      · exact ⟨b, by simp, hab⟩
      · rcases ih hx with ⟨y, hy, hxy⟩
        exact ⟨y, by simp [hy], hxy⟩

lemma forall₂_mem_right {α β : Type} {R : α → β → Prop} {l₁ : List α} {l₂ : List β}
    (h : List.Forall₂ R l₁ l₂) : ∀ {y}, y ∈ l₂ → ∃ x ∈ l₁, R x y := by
  induction h with
  | nil => intro y hy; cases hy
  | @cons a b t₁ t₂ hab _ ih =>
      intro y hy
      rcases List.mem_cons.1 hy with rfl | hy
      · exact ⟨a, by simp, hab⟩
      · rcases ih hy with ⟨x, hx, hxy⟩
        exact ⟨x, by simp [hx], hxy⟩

lemma extremePoints_bounds {pm : Marg}
    (hpm : ∀ p ∈ pm, 0 ≤ p.2.1 ∧ 0 ≤ p.2.2) :
    ∀ d ∈ extremePoints pm, ∀ q ∈ d, 0 ≤ q.2 ∧ q.2 ≤ 1 := by
  intro d hd q hq
  simp only [extremePoints, List.mem_map] at hd
  rcases hd with ⟨v, hv, rfl⟩
  refine normalizeCorner_bounds ?_ q hq
  intro x hx
  rcases forall₂_mem_left (corners_sel hv) hx with ⟨iv, hiv, hcase⟩
  simp only [List.mem_map] at hiv
  rcases hiv with ⟨p, hp, rfl⟩
  rcases hcase with rfl | rfl
  · exact (hpm p hp).1
  · exact (hpm p hp).2

lemma lookup_getD_bounds {d : PDist} (hd : ∀ q ∈ d, 0 ≤ q.2 ∧ q.2 ≤ 1) (s : String) :
    0 ≤ (d.lookup s).getD 0 ∧ (d.lookup s).getD 0 ≤ 1 := by
  cases h : d.lookup s with
  | none => simp
  | some x =>
      have := hd _ (lookup_mem h)
      simpa using this

lemma foldl_mul_bounds : ∀ {xs : List Rat} {ix : Rat}, (∀ x ∈ xs, 0 ≤ x ∧ x ≤ 1) →
    0 ≤ ix → ix ≤ 1 → 0 ≤ xs.foldl (· * ·) ix ∧ xs.foldl (· * ·) ix ≤ 1 := by
  intro xs
  induction xs with
  | nil => intro ix _ h0 h1; exact ⟨h0, h1⟩
  | cons y ys ih =>
      intro ix hb h0 h1
      have hy := hb y (by simp)
      refine ih (fun x hx => hb x (by simp [hx])) ?_ ?_
      · exact mul_nonneg h0 hy.1
      · calc ix * y ≤ 1 * 1 := by
              apply mul_le_mul h1 hy.2 hy.1 (by norm_num)
          _ = 1 := by norm_num

lemma jointProb_bounds {combo : List PDist} {asn : List String}
    (hc : ∀ d ∈ combo, ∀ q ∈ d, 0 ≤ q.2 ∧ q.2 ≤ 1) :
    0 ≤ jointProb combo asn ∧ jointProb combo asn ≤ 1 := by
  unfold jointProb
  refine foldl_mul_bounds ?_ (by norm_num) (by norm_num)
  intro x hx
  simp only [List.mem_map] at hx
  rcases hx with ⟨p, hp, rfl⟩
  have hd : p.1 ∈ combo := (List.of_mem_zip hp).1
  exact lookup_getD_bounds (hc _ hd) _

end Credal

namespace Credal

lemma minOpt_le_right (o : Option Rat) (c : Rat) : minOpt o c ≤ c := by
  cases o <;> simp [minOpt, min_le_right]

lemma maxOpt_ge_right (o : Option Rat) (c : Rat) : c ≤ maxOpt o c := by
  cases o <;> simp [maxOpt, le_max_right]

lemma updateState_some {prob : Rat} {entry : Marg} {e e' : String × Option Rat × Option Rat}
    (h : updateState prob entry e = some e') :
    ∃ iv, entry.lookup e.1 = some iv ∧
      e' = (e.1, some (minOpt e.2.1 (prob * iv.1)), some (maxOpt e.2.2 (prob * iv.2))) := by
  obtain ⟨s, lo, hi⟩ := e
  simp only [updateState] at h
  cases hlk : entry.lookup s with
  | none => rw [hlk] at h; simp at h
  | some iv =>
      rw [hlk] at h
      simp only [Option.bind_eq_bind, Option.some_bind, Option.some.injEq] at h
      refine ⟨iv, rfl, ?_⟩
      cases lo <;> cases hi <;> simp_all [minOpt, maxOpt]

lemma updAll_some {prob : Rat} {entry : Marg} : ∀ {acc acc' : BAcc},
    updAll prob entry acc = some acc' →
    List.Forall₂ (fun e e' => updateState prob entry e = some e') acc acc' := by
  intro acc
  induction acc with
  | nil =>
      intro acc' h
      simp only [updAll, Option.some.injEq] at h
      subst h
      exact .nil
  | cons e es ih =>
      intro acc' h
      simp only [updAll] at h
      cases hu : updateState prob entry e with
      | none => rw [hu] at h; simp at h
      | some e₁ =>
          rw [hu] at h
          simp only [Option.bind_eq_bind, Option.some_bind] at h
          cases hr : updAll prob entry es with
          | none => rw [hr] at h; simp at h
          | some es₁ =>
              rw [hr] at h
              simp only [Option.bind_eq_bind, Option.some_bind, Option.pure_def, Option.some.injEq] at h
              subst h
              exact .cons hu (ih hr)

lemma stepPair_some {t : CTable} {acc : BAcc} {pr : List PDist × List String} {acc' : BAcc}
    (h : stepPair t acc pr = some acc') :
    ∃ entry, t.lookup pr.2 = some entry ∧ updAll (jointProb pr.1 pr.2) entry acc = some acc' := by
  simp only [stepPair] at h
  cases hlk : t.lookup pr.2 with
  | none => rw [hlk] at h; simp at h
  | some entry =>
      rw [hlk] at h
      simp only [Option.bind_eq_bind, Option.some_bind] at h
      exact ⟨entry, rfl, h⟩

lemma stepPair_entries {t : CTable} {acc : BAcc} {pr : List PDist × List String} {acc' : BAcc}
    (h : stepPair t acc pr = some acc') :
    List.Forall₂ (fun e e' : String × Option Rat × Option Rat => e'.1 = e.1
      ∧ e'.2.1 = some (minOpt e.2.1 (contribLow t e.1 pr))
      ∧ e'.2.2 = some (maxOpt e.2.2 (contribHigh t e.1 pr))) acc acc' := by
  rcases stepPair_some h with ⟨entry, hlk, hupd⟩
  refine (updAll_some hupd).imp ?_
  intro e e' hu
  rcases updateState_some hu with ⟨iv, hiv, rfl⟩
  refine ⟨rfl, ?_, ?_⟩
  · simp [contribLow, hlk, hiv]
  · simp [contribHigh, hlk, hiv]

lemma forall₂_comp {α β γ : Type} {R : α → β → Prop} {S : β → γ → Prop} {T : α → γ → Prop}
    (hT : ∀ a b c, R a b → S b c → T a c) :
    ∀ {l₁ : List α} {l₂ : List β} {l₃ : List γ},
      List.Forall₂ R l₁ l₂ → List.Forall₂ S l₂ l₃ → List.Forall₂ T l₁ l₃ := by
  intro l₁ l₂ l₃ h₁
  induction h₁ generalizing l₃ with
  | nil =>
      intro h₂
      cases h₂
      exact .nil
  | @cons a b t₁ t₂ hab _ ih =>
      intro h₂
      cases h₂ with
      | cons hbc h₂' => exact .cons (hT _ _ _ hab hbc) (ih h₂')

lemma foldLow_cons (t : CTable) (s : String) (o : Option Rat)
    (pr : List PDist × List String) (prs : List (List PDist × List String)) :
    foldLow t s o (pr :: prs) = foldLow t s (some (minOpt o (contribLow t s pr))) prs := rfl

lemma foldHigh_cons (t : CTable) (s : String) (o : Option Rat)
    (pr : List PDist × List String) (prs : List (List PDist × List String)) :
    foldHigh t s o (pr :: prs) = foldHigh t s (some (maxOpt o (contribHigh t s pr))) prs := rfl

lemma foldSteps_decompose (t : CTable) :
    ∀ {prs : List (List PDist × List String)} {acc final : BAcc},
    foldSteps t acc prs = some final →
    List.Forall₂ (fun e e' : String × Option Rat × Option Rat => e'.1 = e.1
      ∧ e'.2.1 = foldLow t e.1 e.2.1 prs
      ∧ e'.2.2 = foldHigh t e.1 e.2.2 prs) acc final := by
  intro prs
  induction prs with
  | nil =>
      intro acc final h
      simp only [foldSteps, Option.some.injEq] at h
      subst h
      exact List.forall₂_same.2 (fun e _ => ⟨rfl, rfl, rfl⟩)
  | cons pr prs ih =>
      intro acc final h
      simp only [foldSteps] at h
      cases hs : stepPair t acc pr with
      | none => rw [hs] at h; simp at h
      | some acc₁ =>
          rw [hs] at h
          simp only [Option.bind_eq_bind, Option.some_bind] at h
          refine forall₂_comp ?_ (stepPair_entries hs) (ih h)
          rintro e e₁ e' ⟨hk, hl, hh⟩ ⟨hk', hl', hh'⟩
          refine ⟨hk'.trans hk, ?_, ?_⟩
          · rw [hl', hk, hl, foldLow_cons]
          · rw [hh', hk, hh, foldHigh_cons]

lemma foldLow_le_init (t : CTable) (s : String) :
    ∀ {prs : List (List PDist × List String)} {y x : Rat},
    foldLow t s (some y) prs = some x → x ≤ y := by
  intro prs
  induction prs with
  | nil =>
      intro y x h
      simp only [foldLow, List.foldl_nil, Option.some.injEq] at h
      simp [h.symm]
  | cons pr prs ih =>
      intro y x h
      rw [foldLow_cons] at h
      have := ih h
      calc x ≤ minOpt (some y) (contribLow t s pr) := this
        _ ≤ y := by simp [minOpt, min_le_left]

lemma foldHigh_ge_init (t : CTable) (s : String) :
    ∀ {prs : List (List PDist × List String)} {y x : Rat},
    foldHigh t s (some y) prs = some x → y ≤ x := by
  intro prs
  induction prs with
  | nil =>
      intro y x h
      simp only [foldHigh, List.foldl_nil, Option.some.injEq] at h
      simp [h.symm]
  | cons pr prs ih =>
      intro y x h
      rw [foldHigh_cons] at h
      have := ih h
      calc y ≤ maxOpt (some y) (contribHigh t s pr) := by simp [maxOpt, le_max_left]
        _ ≤ x := this

lemma foldLow_le_contrib (t : CTable) (s : String) :
    ∀ {prs : List (List PDist × List String)} {o : Option Rat} {x : Rat},
    foldLow t s o prs = some x → ∀ pr ∈ prs, x ≤ contribLow t s pr := by
  intro prs
  induction prs with
  | nil => intro o x _ pr hpr; cases hpr
  | cons pr₀ prs ih =>
      intro o x h pr hpr
      rw [foldLow_cons] at h
      rcases List.mem_cons.1 hpr with rfl | hpr
      · calc x ≤ minOpt o (contribLow t s pr) := foldLow_le_init t s h
          _ ≤ contribLow t s pr := minOpt_le_right _ _
      · exact ih h pr hpr

lemma foldHigh_ge_contrib (t : CTable) (s : String) :
    ∀ {prs : List (List PDist × List String)} {o : Option Rat} {x : Rat},
    foldHigh t s o prs = some x → ∀ pr ∈ prs, contribHigh t s pr ≤ x := by
  intro prs
  induction prs with
  | nil => intro o x _ pr hpr; cases hpr
  | cons pr₀ prs ih =>
      intro o x h pr hpr
      rw [foldHigh_cons] at h
      rcases List.mem_cons.1 hpr with rfl | hpr
      · calc contribHigh t s pr ≤ maxOpt o (contribHigh t s pr) := maxOpt_ge_right _ _
          _ ≤ x := foldHigh_ge_init t s h
      · exact ih h pr hpr

lemma foldLow_attain (t : CTable) (s : String) :
    ∀ {prs : List (List PDist × List String)} {o : Option Rat} {x : Rat},
    foldLow t s o prs = some x → o = some x ∨ ∃ pr ∈ prs, x = contribLow t s pr := by
  intro prs
  induction prs with
  | nil =>
      intro o x h
      simp only [foldLow, List.foldl_nil] at h
      exact Or.inl h
  | cons pr₀ prs ih =>
      intro o x h
      rw [foldLow_cons] at h
      rcases ih h with hinit | ⟨pr, hpr, rfl⟩
      · have hx : minOpt o (contribLow t s pr₀) = x := by
          simpa using hinit
        cases o with
        | none =>
            right
            refine ⟨pr₀, by simp, ?_⟩
            simp only [minOpt] at hx
            exact hx.symm
        | some y =>
            rcases min_choice y (contribLow t s pr₀) with hc | hc
            · left
              simp only [minOpt] at hx
              rw [hc] at hx
              simp [hx]
            · right
              refine ⟨pr₀, by simp, ?_⟩
              simp only [minOpt] at hx
              rw [hc] at hx
              exact hx.symm
      · exact Or.inr ⟨pr, by simp [hpr], rfl⟩

lemma foldHigh_attain (t : CTable) (s : String) :
    ∀ {prs : List (List PDist × List String)} {o : Option Rat} {x : Rat},
    foldHigh t s o prs = some x → o = some x ∨ ∃ pr ∈ prs, x = contribHigh t s pr := by
  intro prs
  induction prs with
  | nil =>
      intro o x h
      simp only [foldHigh, List.foldl_nil] at h
      exact Or.inl h
  | cons pr₀ prs ih =>
      intro o x h
      rw [foldHigh_cons] at h
      rcases ih h with hinit | ⟨pr, hpr, rfl⟩
      · have hx : maxOpt o (contribHigh t s pr₀) = x := by
          simpa using hinit
        cases o with
        | none =>
            right
            refine ⟨pr₀, by simp, ?_⟩
            simp only [maxOpt] at hx
            exact hx.symm
        | some y =>
            rcases max_choice y (contribHigh t s pr₀) with hc | hc
            · left
              simp only [maxOpt] at hx
              rw [hc] at hx
              simp [hx]
            · right
              refine ⟨pr₀, by simp, ?_⟩
              simp only [maxOpt] at hx
              rw [hc] at hx
              exact hx.symm
      · exact Or.inr ⟨pr, by simp [hpr], rfl⟩

lemma foldLow_isSome (t : CTable) (s : String) :
    ∀ {prs : List (List PDist × List String)} {y : Rat},
    ∃ x, foldLow t s (some y) prs = some x := by
  intro prs
  induction prs with
  | nil => intro y; exact ⟨y, rfl⟩
  | cons pr prs ih =>
      intro y
      rw [foldLow_cons]
      exact ih

lemma foldHigh_isSome (t : CTable) (s : String) :
    ∀ {prs : List (List PDist × List String)} {y : Rat},
    ∃ x, foldHigh t s (some y) prs = some x := by
  intro prs
  induction prs with
  | nil => intro y; exact ⟨y, rfl⟩
  | cons pr prs ih =>
      intro y
      rw [foldHigh_cons]
      exact ih

lemma foldLow_none (t : CTable) (s : String)
    {prs : List (List PDist × List String)} {o : Option Rat}
    (h : foldLow t s o prs = none) : prs = [] ∧ o = none := by
  cases prs with
  | nil => exact ⟨rfl, h⟩
  | cons pr prs =>
      exfalso
      rw [foldLow_cons] at h
      rcases foldLow_isSome t s with ⟨x, hx⟩
      rw [h] at hx
      cases hx

lemma foldHigh_none (t : CTable) (s : String)
    {prs : List (List PDist × List String)} {o : Option Rat}
    (h : foldHigh t s o prs = none) : prs = [] ∧ o = none := by
  cases prs with
  | nil => exact ⟨rfl, h⟩
  | cons pr prs =>
      exfalso
      rw [foldHigh_cons] at h
      rcases foldHigh_isSome t s with ⟨x, hx⟩
      rw [h] at hx
      cases hx

end Credal

namespace Credal

theorem cnode_ind (P : CNode → Prop)
    (mk : ∀ nm ps t, (∀ p ∈ ps, P p) → P (.mk nm ps t)) : ∀ n, P n
  | .mk nm ps t => mk nm ps t (fun p hp => cnode_ind P mk p)
termination_by n => sizeOf n
decreasing_by
  simp_wf
  have := List.sizeOf_lt_of_mem hp
  omega

lemma head?_mem {α : Type} {l : List α} {a : α} (h : l.head? = some a) : a ∈ l := by
  cases l with
  | nil => cases h
  | cons b bs =>
      simp only [List.head?_cons, Option.some.injEq] at h
      subst h
      simp

lemma forall₂_map_eq {α β γ : Type} {R : α → β → Prop} (f : α → γ) (g : β → γ)
    (hR : ∀ a b, R a b → g b = f a) :
    ∀ {l₁ : List α} {l₂ : List β}, List.Forall₂ R l₁ l₂ → l₂.map g = l₁.map f := by
  intro l₁ l₂ h
  induction h with
  | nil => simp
  | @cons a b t₁ t₂ hab _ ih => simp [ih, hR a b hab]

lemma computeMarginalList_forall₂ : ∀ {ns : List CNode} {pms : List Marg},
    computeMarginalList ns = some pms →
    List.Forall₂ (fun n pm => computeMarginal n = some pm) ns pms := by
  intro ns
  induction ns with
  | nil =>
      intro pms h
      simp only [computeMarginalList, Option.pure_def, Option.some.injEq] at h
      subst h
      exact .nil
  | cons n ns ih =>
      intro pms h
      simp only [computeMarginalList, Option.bind_eq_bind] at h
      cases hm : computeMarginal n with
      | none => rw [hm] at h; simp at h
      | some pm =>
          rw [hm] at h
          simp only [Option.some_bind] at h
          cases hr : computeMarginalList ns with
          | none => rw [hr] at h; simp at h
          | some pms' =>
              rw [hr] at h
              simp only [Option.bind_eq_bind, Option.some_bind, Option.pure_def,
                Option.some.injEq] at h
              subst h
              exact .cons hm (ih hr)

lemma nodesValid_mem : ∀ {ns : List CNode}, nodesValid ns → ∀ n ∈ ns, nodeValid n := by
  intro ns
  induction ns with
  | nil => intro _ n hn; cases hn
  | cons m ms ih =>
      intro h n hn
      simp only [nodesValid] at h
      rcases List.mem_cons.1 hn with rfl | hn
      · exact h.1
      · exact ih h.2 n hn

lemma foldSteps_lookups (t : CTable) :
    ∀ {prs : List (List PDist × List String)} {acc final : BAcc},
    foldSteps t acc prs = some final →
    ∀ pr ∈ prs, ∃ entry, t.lookup pr.2 = some entry ∧
      ∀ e ∈ acc, ∃ iv, entry.lookup e.1 = some iv := by
  intro prs
  induction prs with
  | nil => intro acc final _ pr hpr; cases hpr
  | cons pr₀ prs ih =>
      intro acc final h pr hpr
      simp only [foldSteps] at h
      cases hs : stepPair t acc pr₀ with
      | none => rw [hs] at h; simp at h
      | some acc₁ =>
          rw [hs] at h
          simp only [Option.bind_eq_bind, Option.some_bind] at h
          rcases List.mem_cons.1 hpr with rfl | hpr
          · rcases stepPair_some hs with ⟨entry, hlk, hupd⟩
            refine ⟨entry, hlk, ?_⟩
            intro e he
            rcases forall₂_mem_left (updAll_some hupd) he with ⟨e', _, hu⟩
            rcases updateState_some hu with ⟨iv, hiv, -⟩
            exact ⟨iv, hiv⟩
          · rcases ih h pr hpr with ⟨entry, hlk, hall⟩
            refine ⟨entry, hlk, ?_⟩
            intro e he
            rcases forall₂_mem_left (stepPair_entries hs) he with ⟨e₁, he₁, hk, -, -⟩
            rcases hall e₁ he₁ with ⟨iv, hiv⟩
            rw [hk] at hiv
            exact ⟨iv, hiv⟩

lemma margValid_nonneg {m : Marg} (h : margValid m) : ∀ p ∈ m, 0 ≤ p.2.1 ∧ 0 ≤ p.2.2 := by
  intro p hp
  rcases h.1 p hp with ⟨h0, h1, _⟩
  exact ⟨h0, le_trans h0 h1⟩

lemma pair_dists_bounds {pms : List Marg} (hpmv : ∀ pm ∈ pms, margValid pm)
    {pr : List PDist × List String} (hpr : pr ∈ allPairs (pms.map extremePoints)) :
    ∀ d ∈ pr.1, ∀ q ∈ d, 0 ≤ q.2 ∧ q.2 ≤ 1 := by
  intro d hd
  have hc := (allPairs_mem hpr).1
  rcases forall₂_mem_left (listProd_sel hc) hd with ⟨o, ho, hdo⟩
  simp only [List.mem_map] at ho
  rcases ho with ⟨pm, hpm, rfl⟩
  exact extremePoints_bounds (margValid_nonneg (hpmv pm hpm)) d hdo

lemma marginal_valid_core : ∀ (n : CNode), nodeValid n →
    ∀ m, computeMarginal n = some m → margValid m := by
  intro n
  induction n using cnode_ind with
  | mk nm ps t ih =>
    intro hv m hm
    cases ps with
    | nil =>
        simp only [computeMarginal] at hm
        simp only [nodeValid] at hv
        exact hv.1 _ (lookup_mem hm)
    | cons p ps' =>
        simp only [nodeValid] at hv
        have ht : tableValid t := hv.1
        simp only [computeMarginal, Option.bind_eq_bind] at hm
        cases hpl : computeMarginalList (p :: ps') with
        | none => rw [hpl] at hm; simp at hm
        | some pms =>
        rw [hpl] at hm
        simp only [Option.some_bind] at hm
        cases hhd : t.head? with
        | none => rw [hhd] at hm; simp at hm
        | some firstRow =>
        rw [hhd] at hm
        simp only [Option.some_bind] at hm
        cases hfs : foldSteps t
            ((firstRow.2.map Prod.fst).map (fun s => (s, none, none)))
            (allPairs (pms.map extremePoints)) with
        | none => rw [hfs] at hm; simp at hm
        | some final =>
        rw [hfs] at hm
        simp only [Option.bind_eq_bind, Option.some_bind, Option.pure_def,
          Option.some.injEq] at hm
        subst hm
        have hpmv : ∀ pm ∈ pms, margValid pm := by
          intro pm hpm
          rcases forall₂_mem_right (computeMarginalList_forall₂ hpl) hpm with ⟨n', hn', hcm⟩
          exact ih n' hn' (nodesValid_mem hv.2 n' hn') pm hcm
        have hrowv : margValid firstRow.2 := ht firstRow (head?_mem hhd)
        have hdec := foldSteps_decompose t hfs
        constructor
        · intro q hq
          simp only [List.mem_map] at hq
          rcases hq with ⟨r, hr, rfl⟩
          rcases forall₂_mem_right hdec hr with ⟨e, he, hk, hlo, hhi⟩
          rcases List.mem_map.1 he with ⟨s, hs, rfl⟩
          simp only at hk hlo hhi
          cases hnone : r.2.1 with
          | none =>
              have hp0 := foldLow_none t s (hnone ▸ hlo).symm
              have hhi' : r.2.2 = none := by
                rw [hhi, hp0.1]
                rfl
              simp only [ivalValid, hnone, hhi', Option.getD_none]
              norm_num
          | some x =>
              have hloX : foldLow t s none (allPairs (pms.map extremePoints)) = some x := by
                rw [← hlo]
                exact hnone
              rcases foldLow_attain t s hloX with hcontra | ⟨pr, hpr, rfl⟩
              · cases hcontra
              cases hhiv : r.2.2 with
              | none =>
                  exfalso
                  have hp0 := foldHigh_none t s (hhiv ▸ hhi).symm
                  rw [hp0.1] at hloX
                  cases hloX
              | some y =>
                  have hhiY : foldHigh t s none (allPairs (pms.map extremePoints)) = some y := by
                    rw [← hhi]
                    exact hhiv
                  rcases foldHigh_attain t s hhiY with hcontra | ⟨pr', hpr', rfl⟩
                  · cases hcontra
                  rcases foldSteps_lookups t hfs pr hpr with ⟨entry, hlk, hall⟩
                  rcases hall (s, none, none) (List.mem_map_of_mem _ hs) with ⟨iv, hiv⟩
                  rcases foldSteps_lookups t hfs pr' hpr' with ⟨entry', hlk', hall'⟩
                  rcases hall' (s, none, none) (List.mem_map_of_mem _ hs) with ⟨iv', hiv'⟩
                  have hivv : ivalValid iv := (ht _ (lookup_mem hlk)).1 _ (lookup_mem hiv)
                  have hivv' : ivalValid iv' := (ht _ (lookup_mem hlk')).1 _ (lookup_mem hiv')
                  have hjp := @jointProb_bounds pr.1 pr.2
                    (pair_dists_bounds hpmv hpr)
                  have hjp' := @jointProb_bounds pr'.1 pr'.2
                    (pair_dists_bounds hpmv hpr')
                  have hclow : contribLow t s pr = jointProb pr.1 pr.2 * iv.1 := by
                    simp [contribLow, hlk, hiv]
                  have hchigh : contribHigh t s pr = jointProb pr.1 pr.2 * iv.2 := by
                    simp [contribHigh, hlk, hiv]
                  have hchigh' : contribHigh t s pr' = jointProb pr'.1 pr'.2 * iv'.2 := by
                    simp [contribHigh, hlk', hiv']
                  have hle : contribHigh t s pr ≤ contribHigh t s pr' :=
                    foldHigh_ge_contrib t s hhiY pr hpr
                  refine ⟨?_, ?_, ?_⟩
                  · simp only [hnone, Option.getD_some, hclow]
                    exact mul_nonneg hjp.1 hivv.1
                  · simp only [hnone, hhiv, Option.getD_some, hclow]
                    calc jointProb pr.1 pr.2 * iv.1
                        ≤ jointProb pr.1 pr.2 * iv.2 :=
                          mul_le_mul_of_nonneg_left hivv.2.1 hjp.1
                      _ = contribHigh t s pr := hchigh.symm
                      _ ≤ contribHigh t s pr' := hle
                  · simp only [hhiv, Option.getD_some, hchigh']
                    calc jointProb pr'.1 pr'.2 * iv'.2 ≤ 1 * 1 := by
                          apply mul_le_mul hjp'.2 hivv'.2.2 (le_trans hivv'.1 hivv'.2.1)
                          norm_num
                      _ = 1 := by norm_num
        · have hmap : (final.map (fun r : String × Option Rat × Option Rat =>
              (r.1, (r.2.1.getD 0, r.2.2.getD 1)))).map Prod.fst = final.map (fun r => r.1) := by
            simp
          rw [hmap]
          have hkeys : final.map (fun r : String × Option Rat × Option Rat => r.1) =
              ((firstRow.2.map Prod.fst).map (fun s => ((s, none, none) :
                String × Option Rat × Option Rat))).map (fun e => e.1) := by
            refine forall₂_map_eq _ _ ?_ hdec
            intro a b hab
            exact hab.1
          rw [hkeys]
          simpa [List.map_map, Function.comp] using hrowv.2

end Credal

namespace Credal

lemma foldSteps_missing (t : CTable) :
    ∀ {prs : List (List PDist × List String)} {acc : BAcc},
    (∃ pr ∈ prs, t.lookup pr.2 = none) → foldSteps t acc prs = none := by
  intro prs
  induction prs with
  | nil =>
      rintro acc ⟨pr, hpr, -⟩
      cases hpr
  | cons pr₀ prs ih =>
      rintro acc ⟨pr, hpr, hnone⟩
      simp only [foldSteps, Option.bind_eq_bind]
      rcases List.mem_cons.1 hpr with rfl | hpr
      · have hstep : stepPair t acc pr = none := by
          simp [stepPair, hnone]
        simp [hstep]
      · cases hs : stepPair t acc pr₀ with
        | none => simp
        | some acc₁ => simp [ih ⟨pr, hpr, hnone⟩]

lemma foldl_mul_zero_init : ∀ xs : List Rat, xs.foldl (· * ·) 0 = 0 := by
  intro xs
  induction xs with
  | nil => rfl
  | cons y ys ih => simpa using ih

lemma foldl_mul_zero_mem : ∀ {xs : List Rat}, (0 : Rat) ∈ xs → ∀ ix, xs.foldl (· * ·) ix = 0 := by
  intro xs
  induction xs with
  | nil => intro h; cases h
  | cons y ys ih =>
      intro h ix
      rcases List.mem_cons.1 h with h0 | h0
      · simp only [List.foldl_cons, ← h0, mul_zero]
        exact foldl_mul_zero_init ys
      · exact ih h0 _

/-- C7: for a non-root node whose recursion and enumeration succeed, a
reachable joint parent assignment missing from the credal table makes the
whole marginal computation fail (the `KeyError` of line 82 propagates),
rather than being silently defaulted. -/
theorem computeMarginal_missing_entry_fails
    (nm : String) (p : CNode) (ps : List CNode) (t : CTable)
    (pms : List Marg) (firstRow : List String × Marg)
    (hpl : computeMarginalList (p :: ps) = some pms)
    (hhd : t.head? = some firstRow)
    (combo : List PDist) (asn : List String)
    (hcombo : combo ∈ listProd (pms.map extremePoints))
    (hasn : asn ∈ listProd (combo.map (fun d => d.map Prod.fst)))
    (hmiss : t.lookup asn = none) :
    computeMarginal (CNode.mk nm (p :: ps) t) = none := by
  simp only [computeMarginal, Option.bind_eq_bind, hpl, Option.some_bind, hhd]
  have hfold : foldSteps t
      ((firstRow.2.map Prod.fst).map (fun s => (s, none, none)))
      (allPairs (pms.map extremePoints)) = none :=
    foldSteps_missing t ⟨(combo, asn), mem_allPairs hcombo hasn, hmiss⟩
  rw [List.map_map] at hfold
  simp [hfold]

/-- C6: a root node returns exactly its credal-table entry for the empty
parent assignment, unmodified. -/
theorem computeMarginal_root_identity (nm : String) (t : CTable) (m : Marg)
    (h : t.lookup [] = some m) : computeMarginal (CNode.mk nm [] t) = some m := by
  simp only [computeMarginal]
  exact h

/-- C6 witness: the root node Flu of the medical example. -/
theorem computeMarginal_root_identity_witness :
    (fluNode.table.lookup [] =
      some [("Present", (1/20, 1/10)), ("Absent", (9/10, 19/20))])
    ∧ computeMarginal fluNode =
      some [("Present", (1/20, 1/10)), ("Absent", (9/10, 19/20))] :=
  ⟨rfl, computeMarginal_root_identity "Flu" _ _ rfl⟩

/-- C5: under valid input tables on the node and all ancestors, every state
of a successfully computed marginal carries bounds `0 ≤ low ≤ high ≤ 1`. -/
theorem computeMarginal_bounds_unit (n : CNode) (m : Marg)
    (hv : nodeValid n) (h : computeMarginal n = some m) :
    ∀ p ∈ m, 0 ≤ p.2.1 ∧ p.2.1 ≤ p.2.2 ∧ p.2.2 ≤ 1 := by
  intro p hp
  exact (marginal_valid_core n hv m h).1 p hp

/-- C8: under nonnegative parent bounds, a corner vector with total 0 is
left unrenormalized (the division of line 67 is guarded by `total > 0`),
all of its weights are 0, and any such degenerate distribution forces joint
probability 0 for every parent assignment. -/
theorem degenerate_corner_no_renormalize (pm : Marg)
    (hpm : ∀ p ∈ pm, 0 ≤ p.2.1 ∧ 0 ≤ p.2.2) :
    (∀ v ∈ corners (pm.map Prod.snd), v.sum = 0 →
      normalizeCorner (pm.map Prod.fst) v = (pm.map Prod.fst).zip v
      ∧ (∀ q ∈ normalizeCorner (pm.map Prod.fst) v, q.2 = 0))
    ∧ (∀ (combo : List PDist) (asn : List String) (d : PDist) (s : String),
        (d, s) ∈ combo.zip asn → (∀ q ∈ d, q.2 = 0) → jointProb combo asn = 0) := by
  constructor
  · intro v hv hsum
    have hpos : ∀ x ∈ v, 0 ≤ x := by
      intro x hx
      rcases forall₂_mem_left (corners_sel hv) hx with ⟨iv, hiv, hcase⟩
      simp only [List.mem_map] at hiv
      rcases hiv with ⟨p, hp, rfl⟩
      rcases hcase with rfl | rfl
      · exact (hpm p hp).1
      · exact (hpm p hp).2
    have hnot : ¬ 0 < v.sum := by rw [hsum]; exact lt_irrefl 0
    constructor
    · simp [normalizeCorner, hnot]
    · intro q hq
      simp only [normalizeCorner, hnot, if_false] at hq
      exact sum_zero_of_nonneg hpos (le_of_eq hsum) _ (List.of_mem_zip hq).2
  · intro combo asn d s hmem hzero
    have h0 : (0 : Rat) ∈ (combo.zip asn).map (fun p => ((p.1.lookup p.2).getD 0)) := by
      refine List.mem_map.2 ⟨(d, s), hmem, ?_⟩
      cases hlk : d.lookup s with
      | none => simp
      | some x => simpa using hzero _ (lookup_mem hlk)
    exact foldl_mul_zero_mem h0 1

end Credal

namespace Credal

lemma foldSteps_append (t : CTable) :
    ∀ (l1 l2 : List (List PDist × List String)) (acc : BAcc),
    foldSteps t acc (l1 ++ l2) = (foldSteps t acc l1).bind (fun a => foldSteps t a l2) := by
  intro l1
  induction l1 with
  | nil => intro l2 acc; rfl
  | cons pr prs ih =>
      intro l2 acc
      simp only [List.cons_append, foldSteps, Option.bind_eq_bind]
      cases hs : stepPair t acc pr with
      | none => rfl
      | some acc' => simpa using ih l2 acc'

end Credal

namespace Credal

lemma fevStep0 (rest : List (List PDist × List String)) :
    foldSteps feverTable [("Present", none, none), ("Absent", none, none)]
      (([fluEPa, coldEPa], ["Present", "Present"]) :: ([fluEPa, coldEPa], ["Present", "Absent"]) :: ([fluEPa, coldEPa], ["Absent", "Present"]) :: ([fluEPa, coldEPa], ["Absent", "Absent"]) :: rest) =
    foldSteps feverTable [("Present", some (0), some (17/190)), ("Absent", some (0), some (16/19))] rest := by
  simp [foldSteps, stepPair, updAll, updateState, jointProb, List.lookup,
    min_def, max_def, fluEPa, fluEPb, fluEPc, fluEPd, coldEPa, coldEPb, coldEPc, coldEPd, feverTable]
  norm_num

lemma fevStep1 (rest : List (List PDist × List String)) :
    foldSteps feverTable [("Present", some (0), some (17/190)), ("Absent", some (0), some (16/19))]
      (([fluEPa, coldEPb], ["Present", "Present"]) :: ([fluEPa, coldEPb], ["Present", "Absent"]) :: ([fluEPa, coldEPb], ["Absent", "Present"]) :: ([fluEPa, coldEPb], ["Absent", "Absent"]) :: rest) =
    foldSteps feverTable [("Present", some (0), some (17/190)), ("Absent", some (0), some (81/95))] rest := by
  simp [foldSteps, stepPair, updAll, updateState, jointProb, List.lookup,
    min_def, max_def, fluEPa, fluEPb, fluEPc, fluEPd, coldEPa, coldEPb, coldEPc, coldEPd, feverTable]
  norm_num

lemma fevStep2 (rest : List (List PDist × List String)) :
    foldSteps feverTable [("Present", some (0), some (17/190)), ("Absent", some (0), some (81/95))]
      (([fluEPa, coldEPc], ["Present", "Present"]) :: ([fluEPa, coldEPc], ["Present", "Absent"]) :: ([fluEPa, coldEPc], ["Absent", "Present"]) :: ([fluEPa, coldEPc], ["Absent", "Absent"]) :: rest) =
    foldSteps feverTable [("Present", some (0), some (153/950)), ("Absent", some (0), some (81/95))] rest := by
  simp [foldSteps, stepPair, updAll, updateState, jointProb, List.lookup,
    min_def, max_def, fluEPa, fluEPb, fluEPc, fluEPd, coldEPa, coldEPb, coldEPc, coldEPd, feverTable]
  norm_num

lemma fevStep3 (rest : List (List PDist × List String)) :
    foldSteps feverTable [("Present", some (0), some (153/950)), ("Absent", some (0), some (81/95))]
      (([fluEPa, coldEPd], ["Present", "Present"]) :: ([fluEPa, coldEPd], ["Present", "Absent"]) :: ([fluEPa, coldEPd], ["Absent", "Present"]) :: ([fluEPa, coldEPd], ["Absent", "Absent"]) :: rest) =
    foldSteps feverTable [("Present", some (0), some (153/950)), ("Absent", some (0), some (81/95))] rest := by
  simp [foldSteps, stepPair, updAll, updateState, jointProb, List.lookup,
    min_def, max_def, fluEPa, fluEPb, fluEPc, fluEPd, coldEPa, coldEPb, coldEPc, coldEPd, feverTable]
  norm_num

lemma fevStep4 (rest : List (List PDist × List String)) :
    foldSteps feverTable [("Present", some (0), some (153/950)), ("Absent", some (0), some (81/95))]
      (([fluEPb, coldEPa], ["Present", "Present"]) :: ([fluEPb, coldEPa], ["Present", "Absent"]) :: ([fluEPb, coldEPa], ["Absent", "Present"]) :: ([fluEPb, coldEPa], ["Absent", "Absent"]) :: rest) =
    foldSteps feverTable [("Present", some (0), some (153/950)), ("Absent", some (0), some (81/95))] rest := by
  simp [foldSteps, stepPair, updAll, updateState, jointProb, List.lookup,
    min_def, max_def, fluEPa, fluEPb, fluEPc, fluEPd, coldEPa, coldEPb, coldEPc, coldEPd, feverTable]
  norm_num

lemma fevStep5 (rest : List (List PDist × List String)) :
    foldSteps feverTable [("Present", some (0), some (153/950)), ("Absent", some (0), some (81/95))]
      (([fluEPb, coldEPb], ["Present", "Present"]) :: ([fluEPb, coldEPb], ["Present", "Absent"]) :: ([fluEPb, coldEPb], ["Absent", "Present"]) :: ([fluEPb, coldEPb], ["Absent", "Absent"]) :: rest) =
    foldSteps feverTable [("Present", some (0), some (153/950)), ("Absent", some (0), some (171/200))] rest := by
  simp [foldSteps, stepPair, updAll, updateState, jointProb, List.lookup,
    min_def, max_def, fluEPa, fluEPb, fluEPc, fluEPd, coldEPa, coldEPb, coldEPc, coldEPd, feverTable]
  norm_num

lemma fevStep6 (rest : List (List PDist × List String)) :
    foldSteps feverTable [("Present", some (0), some (153/950)), ("Absent", some (0), some (171/200))]
      (([fluEPb, coldEPc], ["Present", "Present"]) :: ([fluEPb, coldEPc], ["Present", "Absent"]) :: ([fluEPb, coldEPc], ["Absent", "Present"]) :: ([fluEPb, coldEPc], ["Absent", "Absent"]) :: rest) =
    foldSteps feverTable [("Present", some (0), some (323/2000)), ("Absent", some (0), some (171/200))] rest := by
  simp [foldSteps, stepPair, updAll, updateState, jointProb, List.lookup,
    min_def, max_def, fluEPa, fluEPb, fluEPc, fluEPd, coldEPa, coldEPb, coldEPc, coldEPd, feverTable]
  norm_num

lemma fevStep7 (rest : List (List PDist × List String)) :
    foldSteps feverTable [("Present", some (0), some (323/2000)), ("Absent", some (0), some (171/200))]
      (([fluEPb, coldEPd], ["Present", "Present"]) :: ([fluEPb, coldEPd], ["Present", "Absent"]) :: ([fluEPb, coldEPd], ["Absent", "Present"]) :: ([fluEPb, coldEPd], ["Absent", "Absent"]) :: rest) =
    foldSteps feverTable [("Present", some (0), some (323/2000)), ("Absent", some (0), some (171/200))] rest := by
  simp [foldSteps, stepPair, updAll, updateState, jointProb, List.lookup,
    min_def, max_def, fluEPa, fluEPb, fluEPc, fluEPd, coldEPa, coldEPb, coldEPc, coldEPd, feverTable]
  norm_num

lemma fevStep8 (rest : List (List PDist × List String)) :
    foldSteps feverTable [("Present", some (0), some (323/2000)), ("Absent", some (0), some (171/200))]
      (([fluEPc, coldEPa], ["Present", "Present"]) :: ([fluEPc, coldEPa], ["Present", "Absent"]) :: ([fluEPc, coldEPa], ["Absent", "Present"]) :: ([fluEPc, coldEPa], ["Absent", "Absent"]) :: rest) =
    foldSteps feverTable [("Present", some (0), some (323/2000)), ("Absent", some (0), some (171/200))] rest := by
  simp [foldSteps, stepPair, updAll, updateState, jointProb, List.lookup,
    min_def, max_def, fluEPa, fluEPb, fluEPc, fluEPd, coldEPa, coldEPb, coldEPc, coldEPd, feverTable]
  norm_num

lemma fevStep9 (rest : List (List PDist × List String)) :
    foldSteps feverTable [("Present", some (0), some (323/2000)), ("Absent", some (0), some (171/200))]
      (([fluEPc, coldEPb], ["Present", "Present"]) :: ([fluEPc, coldEPb], ["Present", "Absent"]) :: ([fluEPc, coldEPb], ["Absent", "Present"]) :: ([fluEPc, coldEPb], ["Absent", "Absent"]) :: rest) =
    foldSteps feverTable [("Present", some (0), some (323/2000)), ("Absent", some (0), some (171/200))] rest := by
  simp [foldSteps, stepPair, updAll, updateState, jointProb, List.lookup,
    min_def, max_def, fluEPa, fluEPb, fluEPc, fluEPd, coldEPa, coldEPb, coldEPc, coldEPd, feverTable]
  norm_num

lemma fevStep10 (rest : List (List PDist × List String)) :
    foldSteps feverTable [("Present", some (0), some (323/2000)), ("Absent", some (0), some (171/200))]
      (([fluEPc, coldEPc], ["Present", "Present"]) :: ([fluEPc, coldEPc], ["Present", "Absent"]) :: ([fluEPc, coldEPc], ["Absent", "Present"]) :: ([fluEPc, coldEPc], ["Absent", "Absent"]) :: rest) =
    foldSteps feverTable [("Present", some (0), some (323/2000)), ("Absent", some (0), some (171/200))] rest := by
  simp [foldSteps, stepPair, updAll, updateState, jointProb, List.lookup,
    min_def, max_def, fluEPa, fluEPb, fluEPc, fluEPd, coldEPa, coldEPb, coldEPc, coldEPd, feverTable]
  norm_num

lemma fevStep11 (rest : List (List PDist × List String)) :
    foldSteps feverTable [("Present", some (0), some (323/2000)), ("Absent", some (0), some (171/200))]
      (([fluEPc, coldEPd], ["Present", "Present"]) :: ([fluEPc, coldEPd], ["Present", "Absent"]) :: ([fluEPc, coldEPd], ["Absent", "Present"]) :: ([fluEPc, coldEPd], ["Absent", "Absent"]) :: rest) =
    foldSteps feverTable [("Present", some (0), some (323/2000)), ("Absent", some (0), some (171/200))] rest := by
  simp [foldSteps, stepPair, updAll, updateState, jointProb, List.lookup,
    min_def, max_def, fluEPa, fluEPb, fluEPc, fluEPd, coldEPa, coldEPb, coldEPc, coldEPd, feverTable]
  norm_num

lemma fevStep12 (rest : List (List PDist × List String)) :
    foldSteps feverTable [("Present", some (0), some (323/2000)), ("Absent", some (0), some (171/200))]
      (([fluEPd, coldEPa], ["Present", "Present"]) :: ([fluEPd, coldEPa], ["Present", "Absent"]) :: ([fluEPd, coldEPa], ["Absent", "Present"]) :: ([fluEPd, coldEPa], ["Absent", "Absent"]) :: rest) =
    foldSteps feverTable [("Present", some (0), some (323/2000)), ("Absent", some (0), some (171/200))] rest := by
  simp [foldSteps, stepPair, updAll, updateState, jointProb, List.lookup,
    min_def, max_def, fluEPa, fluEPb, fluEPc, fluEPd, coldEPa, coldEPb, coldEPc, coldEPd, feverTable]
  norm_num

lemma fevStep13 (rest : List (List PDist × List String)) :
    foldSteps feverTable [("Present", some (0), some (323/2000)), ("Absent", some (0), some (171/200))]
      (([fluEPd, coldEPb], ["Present", "Present"]) :: ([fluEPd, coldEPb], ["Present", "Absent"]) :: ([fluEPd, coldEPb], ["Absent", "Present"]) :: ([fluEPd, coldEPb], ["Absent", "Absent"]) :: rest) =
    foldSteps feverTable [("Present", some (0), some (323/2000)), ("Absent", some (0), some (171/200))] rest := by
  simp [foldSteps, stepPair, updAll, updateState, jointProb, List.lookup,
    min_def, max_def, fluEPa, fluEPb, fluEPc, fluEPd, coldEPa, coldEPb, coldEPc, coldEPd, feverTable]
  norm_num

lemma fevStep14 (rest : List (List PDist × List String)) :
    foldSteps feverTable [("Present", some (0), some (323/2000)), ("Absent", some (0), some (171/200))]
      (([fluEPd, coldEPc], ["Present", "Present"]) :: ([fluEPd, coldEPc], ["Present", "Absent"]) :: ([fluEPd, coldEPc], ["Absent", "Present"]) :: ([fluEPd, coldEPc], ["Absent", "Absent"]) :: rest) =
    foldSteps feverTable [("Present", some (0), some (323/2000)), ("Absent", some (0), some (171/200))] rest := by
  simp [foldSteps, stepPair, updAll, updateState, jointProb, List.lookup,
    min_def, max_def, fluEPa, fluEPb, fluEPc, fluEPd, coldEPa, coldEPb, coldEPc, coldEPd, feverTable]
  norm_num

lemma fevStep15 (rest : List (List PDist × List String)) :
    foldSteps feverTable [("Present", some (0), some (323/2000)), ("Absent", some (0), some (171/200))]
      (([fluEPd, coldEPd], ["Present", "Present"]) :: ([fluEPd, coldEPd], ["Present", "Absent"]) :: ([fluEPd, coldEPd], ["Absent", "Present"]) :: ([fluEPd, coldEPd], ["Absent", "Absent"]) :: rest) =
    foldSteps feverTable [("Present", some (0), some (323/2000)), ("Absent", some (0), some (171/200))] rest := by
  simp [foldSteps, stepPair, updAll, updateState, jointProb, List.lookup,
    min_def, max_def, fluEPa, fluEPb, fluEPc, fluEPd, coldEPa, coldEPb, coldEPc, coldEPd, feverTable]
  norm_num

lemma fevPairs : allPairs [[fluEPa, fluEPb, fluEPc, fluEPd], [coldEPa, coldEPb, coldEPc, coldEPd]] =
    [ ([fluEPa, coldEPa], ["Present", "Present"]),
      ([fluEPa, coldEPa], ["Present", "Absent"]),
      ([fluEPa, coldEPa], ["Absent", "Present"]),
      ([fluEPa, coldEPa], ["Absent", "Absent"]),
      ([fluEPa, coldEPb], ["Present", "Present"]),
      ([fluEPa, coldEPb], ["Present", "Absent"]),
      ([fluEPa, coldEPb], ["Absent", "Present"]),
      ([fluEPa, coldEPb], ["Absent", "Absent"]),
      ([fluEPa, coldEPc], ["Present", "Present"]),
      ([fluEPa, coldEPc], ["Present", "Absent"]),
      ([fluEPa, coldEPc], ["Absent", "Present"]),
      ([fluEPa, coldEPc], ["Absent", "Absent"]),
      ([fluEPa, coldEPd], ["Present", "Present"]),
      ([fluEPa, coldEPd], ["Present", "Absent"]),
      ([fluEPa, coldEPd], ["Absent", "Present"]),
      ([fluEPa, coldEPd], ["Absent", "Absent"]),
      ([fluEPb, coldEPa], ["Present", "Present"]),
      ([fluEPb, coldEPa], ["Present", "Absent"]),
      ([fluEPb, coldEPa], ["Absent", "Present"]),
      ([fluEPb, coldEPa], ["Absent", "Absent"]),
      ([fluEPb, coldEPb], ["Present", "Present"]),
      ([fluEPb, coldEPb], ["Present", "Absent"]),
      ([fluEPb, coldEPb], ["Absent", "Present"]),
      ([fluEPb, coldEPb], ["Absent", "Absent"]),
      ([fluEPb, coldEPc], ["Present", "Present"]),
      ([fluEPb, coldEPc], ["Present", "Absent"]),
      ([fluEPb, coldEPc], ["Absent", "Present"]),
      ([fluEPb, coldEPc], ["Absent", "Absent"]),
      ([fluEPb, coldEPd], ["Present", "Present"]),
      ([fluEPb, coldEPd], ["Present", "Absent"]),
      ([fluEPb, coldEPd], ["Absent", "Present"]),
      ([fluEPb, coldEPd], ["Absent", "Absent"]),
      ([fluEPc, coldEPa], ["Present", "Present"]),
      ([fluEPc, coldEPa], ["Present", "Absent"]),
      ([fluEPc, coldEPa], ["Absent", "Present"]),
      ([fluEPc, coldEPa], ["Absent", "Absent"]),
      ([fluEPc, coldEPb], ["Present", "Present"]),
      ([fluEPc, coldEPb], ["Present", "Absent"]),
      ([fluEPc, coldEPb], ["Absent", "Present"]),
      ([fluEPc, coldEPb], ["Absent", "Absent"]),
      ([fluEPc, coldEPc], ["Present", "Present"]),
      ([fluEPc, coldEPc], ["Present", "Absent"]),
      ([fluEPc, coldEPc], ["Absent", "Present"]),
      ([fluEPc, coldEPc], ["Absent", "Absent"]),
      ([fluEPc, coldEPd], ["Present", "Present"]),
      ([fluEPc, coldEPd], ["Present", "Absent"]),
      ([fluEPc, coldEPd], ["Absent", "Present"]),
      ([fluEPc, coldEPd], ["Absent", "Absent"]),
      ([fluEPd, coldEPa], ["Present", "Present"]),
      ([fluEPd, coldEPa], ["Present", "Absent"]),
      ([fluEPd, coldEPa], ["Absent", "Present"]),
      ([fluEPd, coldEPa], ["Absent", "Absent"]),
      ([fluEPd, coldEPb], ["Present", "Present"]),
      ([fluEPd, coldEPb], ["Present", "Absent"]),
      ([fluEPd, coldEPb], ["Absent", "Present"]),
      ([fluEPd, coldEPb], ["Absent", "Absent"]),
      ([fluEPd, coldEPc], ["Present", "Present"]),
      ([fluEPd, coldEPc], ["Present", "Absent"]),
      ([fluEPd, coldEPc], ["Absent", "Present"]),
      ([fluEPd, coldEPc], ["Absent", "Absent"]),
      ([fluEPd, coldEPd], ["Present", "Present"]),
      ([fluEPd, coldEPd], ["Present", "Absent"]),
      ([fluEPd, coldEPd], ["Absent", "Present"]),
      ([fluEPd, coldEPd], ["Absent", "Absent"]) ] := by
  simp only [allPairs, listProd, List.flatMap_cons, List.flatMap_nil, List.map_cons,
    List.map_nil, List.append_nil, List.nil_append, List.cons_append, List.singleton_append,
    fluEPa, fluEPb, fluEPc, fluEPd, coldEPa, coldEPb, coldEPc, coldEPd]

lemma fevFold : foldSteps feverTable [("Present", none, none), ("Absent", none, none)]
      (allPairs [[fluEPa, fluEPb, fluEPc, fluEPd], [coldEPa, coldEPb, coldEPc, coldEPd]]) =
    some [("Present", some (0), some (323/2000)), ("Absent", some (0), some (171/200))] := by
  rw [fevPairs, fevStep0, fevStep1, fevStep2, fevStep3, fevStep4, fevStep5, fevStep6, fevStep7, fevStep8, fevStep9, fevStep10, fevStep11, fevStep12, fevStep13, fevStep14, fevStep15]
  rfl

lemma fevFluExt : extremePoints [("Present", (1/20, 1/10)), ("Absent", (9/10, 19/20))] =
    [fluEPa, fluEPb, fluEPc, fluEPd] := by
  simp [extremePoints, corners, normalizeCorner, fluEPa, fluEPb, fluEPc, fluEPd]
  norm_num

lemma fevColdExt : extremePoints [("Present", (1/10, 1/5)), ("Absent", (4/5, 9/10))] =
    [coldEPa, coldEPb, coldEPc, coldEPd] := by
  simp [extremePoints, corners, normalizeCorner, coldEPa, coldEPb, coldEPc, coldEPd]
  norm_num

lemma feverMarginal_eval : computeMarginal feverNode =
    some [("Present", (0, 323/2000)), ("Absent", (0, 171/200))] := by
  have h1 : computeMarginalList [fluNode, coldNode] =
      some [[("Present", (1/20, 1/10)), ("Absent", (9/10, 19/20))], [("Present", (1/10, 1/5)), ("Absent", (4/5, 9/10))]] := rfl
  show computeMarginal (CNode.mk "Fever" [fluNode, coldNode] feverTable) = _
  simp only [computeMarginal, Option.bind_eq_bind, h1, Option.some_bind]
  rw [show (feverTable).head? = some (["Present", "Present"], [("Present", (9/10, 1)), ("Absent", (0, 1/10))]) from rfl]
  simp only [Option.some_bind, List.map_cons, List.map_nil, fevFluExt, fevColdExt,
    fevFold]
  rfl

lemma couStep0 (rest : List (List PDist × List String)) :
    foldSteps coughTable [("Present", none, none), ("Absent", none, none)]
      (([fluEPa, coldEPa], ["Present", "Present"]) :: ([fluEPa, coldEPa], ["Present", "Absent"]) :: ([fluEPa, coldEPa], ["Absent", "Present"]) :: ([fluEPa, coldEPa], ["Absent", "Absent"]) :: rest) =
    foldSteps coughTable [("Present", some (0), some (8/95)), ("Absent", some (1/3420), some (16/19))] rest := by
  simp [foldSteps, stepPair, updAll, updateState, jointProb, List.lookup,
    min_def, max_def, fluEPa, fluEPb, fluEPc, fluEPd, coldEPa, coldEPb, coldEPc, coldEPd, coughTable]
  norm_num

lemma couStep1 (rest : List (List PDist × List String)) :
    foldSteps coughTable [("Present", some (0), some (8/95)), ("Absent", some (1/3420), some (16/19))]
      (([fluEPa, coldEPb], ["Present", "Present"]) :: ([fluEPa, coldEPb], ["Present", "Absent"]) :: ([fluEPa, coldEPb], ["Absent", "Present"]) :: ([fluEPa, coldEPb], ["Absent", "Absent"]) :: rest) =
    foldSteps coughTable [("Present", some (0), some (81/950)), ("Absent", some (1/3800), some (81/95))] rest := by
  simp [foldSteps, stepPair, updAll, updateState, jointProb, List.lookup,
    min_def, max_def, fluEPa, fluEPb, fluEPc, fluEPd, coldEPa, coldEPb, coldEPc, coldEPd, coughTable]
  norm_num

lemma couStep2 (rest : List (List PDist × List String)) :
    foldSteps coughTable [("Present", some (0), some (81/950)), ("Absent", some (1/3800), some (81/95))]
      (([fluEPa, coldEPc], ["Present", "Present"]) :: ([fluEPa, coldEPc], ["Present", "Absent"]) :: ([fluEPa, coldEPc], ["Absent", "Present"]) :: ([fluEPa, coldEPc], ["Absent", "Absent"]) :: rest) =
    foldSteps coughTable [("Present", some (0), some (63/475)), ("Absent", some (1/3800), some (81/95))] rest := by
  simp [foldSteps, stepPair, updAll, updateState, jointProb, List.lookup,
    min_def, max_def, fluEPa, fluEPb, fluEPc, fluEPd, coldEPa, coldEPb, coldEPc, coldEPd, coughTable]
  norm_num

lemma couStep3 (rest : List (List PDist × List String)) :
    foldSteps coughTable [("Present", some (0), some (63/475)), ("Absent", some (1/3800), some (81/95))]
      (([fluEPa, coldEPd], ["Present", "Present"]) :: ([fluEPa, coldEPd], ["Present", "Absent"]) :: ([fluEPa, coldEPd], ["Absent", "Present"]) :: ([fluEPa, coldEPd], ["Absent", "Absent"]) :: rest) =
    foldSteps coughTable [("Present", some (0), some (63/475)), ("Absent", some (1/3800), some (81/95))] rest := by
  simp [foldSteps, stepPair, updAll, updateState, jointProb, List.lookup,
    min_def, max_def, fluEPa, fluEPb, fluEPc, fluEPd, coldEPa, coldEPb, coldEPc, coldEPd, coughTable]
  norm_num

lemma couStep4 (rest : List (List PDist × List String)) :
    foldSteps coughTable [("Present", some (0), some (63/475)), ("Absent", some (1/3800), some (81/95))]
      (([fluEPb, coldEPa], ["Present", "Present"]) :: ([fluEPb, coldEPa], ["Present", "Absent"]) :: ([fluEPb, coldEPa], ["Absent", "Present"]) :: ([fluEPb, coldEPa], ["Absent", "Absent"]) :: rest) =
    foldSteps coughTable [("Present", some (0), some (63/475)), ("Absent", some (1/3800), some (81/95))] rest := by
  simp [foldSteps, stepPair, updAll, updateState, jointProb, List.lookup,
    min_def, max_def, fluEPa, fluEPb, fluEPc, fluEPd, coldEPa, coldEPb, coldEPc, coldEPd, coughTable]
  norm_num

lemma couStep5 (rest : List (List PDist × List String)) :
    foldSteps coughTable [("Present", some (0), some (63/475)), ("Absent", some (1/3800), some (81/95))]
      (([fluEPb, coldEPb], ["Present", "Present"]) :: ([fluEPb, coldEPb], ["Present", "Absent"]) :: ([fluEPb, coldEPb], ["Absent", "Present"]) :: ([fluEPb, coldEPb], ["Absent", "Absent"]) :: rest) =
    foldSteps coughTable [("Present", some (0), some (63/475)), ("Absent", some (1/4000), some (171/200))] rest := by
  simp [foldSteps, stepPair, updAll, updateState, jointProb, List.lookup,
    min_def, max_def, fluEPa, fluEPb, fluEPc, fluEPd, coldEPa, coldEPb, coldEPc, coldEPd, coughTable]
  norm_num

lemma couStep6 (rest : List (List PDist × List String)) :
    foldSteps coughTable [("Present", some (0), some (63/475)), ("Absent", some (1/4000), some (171/200))]
      (([fluEPb, coldEPc], ["Present", "Present"]) :: ([fluEPb, coldEPc], ["Present", "Absent"]) :: ([fluEPb, coldEPc], ["Absent", "Present"]) :: ([fluEPb, coldEPc], ["Absent", "Absent"]) :: rest) =
    foldSteps coughTable [("Present", some (0), some (133/1000)), ("Absent", some (1/4000), some (171/200))] rest := by
  simp [foldSteps, stepPair, updAll, updateState, jointProb, List.lookup,
    min_def, max_def, fluEPa, fluEPb, fluEPc, fluEPd, coldEPa, coldEPb, coldEPc, coldEPd, coughTable]
  norm_num

lemma couStep7 (rest : List (List PDist × List String)) :
    foldSteps coughTable [("Present", some (0), some (133/1000)), ("Absent", some (1/4000), some (171/200))]
      (([fluEPb, coldEPd], ["Present", "Present"]) :: ([fluEPb, coldEPd], ["Present", "Absent"]) :: ([fluEPb, coldEPd], ["Absent", "Present"]) :: ([fluEPb, coldEPd], ["Absent", "Absent"]) :: rest) =
    foldSteps coughTable [("Present", some (0), some (133/1000)), ("Absent", some (1/4000), some (171/200))] rest := by
  simp [foldSteps, stepPair, updAll, updateState, jointProb, List.lookup,
    min_def, max_def, fluEPa, fluEPb, fluEPc, fluEPd, coldEPa, coldEPb, coldEPc, coldEPd, coughTable]
  norm_num

lemma couStep8 (rest : List (List PDist × List String)) :
    foldSteps coughTable [("Present", some (0), some (133/1000)), ("Absent", some (1/4000), some (171/200))]
      (([fluEPc, coldEPa], ["Present", "Present"]) :: ([fluEPc, coldEPa], ["Present", "Absent"]) :: ([fluEPc, coldEPa], ["Absent", "Present"]) :: ([fluEPc, coldEPa], ["Absent", "Absent"]) :: rest) =
    foldSteps coughTable [("Present", some (0), some (133/1000)), ("Absent", some (1/4000), some (171/200))] rest := by
  simp [foldSteps, stepPair, updAll, updateState, jointProb, List.lookup,
    min_def, max_def, fluEPa, fluEPb, fluEPc, fluEPd, coldEPa, coldEPb, coldEPc, coldEPd, coughTable]
  norm_num

lemma couStep9 (rest : List (List PDist × List String)) :
    foldSteps coughTable [("Present", some (0), some (133/1000)), ("Absent", some (1/4000), some (171/200))]
      (([fluEPc, coldEPb], ["Present", "Present"]) :: ([fluEPc, coldEPb], ["Present", "Absent"]) :: ([fluEPc, coldEPb], ["Absent", "Present"]) :: ([fluEPc, coldEPb], ["Absent", "Absent"]) :: rest) =
    foldSteps coughTable [("Present", some (0), some (133/1000)), ("Absent", some (1/4000), some (171/200))] rest := by
  simp [foldSteps, stepPair, updAll, updateState, jointProb, List.lookup,
    min_def, max_def, fluEPa, fluEPb, fluEPc, fluEPd, coldEPa, coldEPb, coldEPc, coldEPd, coughTable]
  norm_num

lemma couStep10 (rest : List (List PDist × List String)) :
    foldSteps coughTable [("Present", some (0), some (133/1000)), ("Absent", some (1/4000), some (171/200))]
      (([fluEPc, coldEPc], ["Present", "Present"]) :: ([fluEPc, coldEPc], ["Present", "Absent"]) :: ([fluEPc, coldEPc], ["Absent", "Present"]) :: ([fluEPc, coldEPc], ["Absent", "Absent"]) :: rest) =
    foldSteps coughTable [("Present", some (0), some (133/1000)), ("Absent", some (1/4000), some (171/200))] rest := by
  simp [foldSteps, stepPair, updAll, updateState, jointProb, List.lookup,
    min_def, max_def, fluEPa, fluEPb, fluEPc, fluEPd, coldEPa, coldEPb, coldEPc, coldEPd, coughTable]
  norm_num

lemma couStep11 (rest : List (List PDist × List String)) :
    foldSteps coughTable [("Present", some (0), some (133/1000)), ("Absent", some (1/4000), some (171/200))]
      (([fluEPc, coldEPd], ["Present", "Present"]) :: ([fluEPc, coldEPd], ["Present", "Absent"]) :: ([fluEPc, coldEPd], ["Absent", "Present"]) :: ([fluEPc, coldEPd], ["Absent", "Absent"]) :: rest) =
    foldSteps coughTable [("Present", some (0), some (133/1000)), ("Absent", some (1/4000), some (171/200))] rest := by
  simp [foldSteps, stepPair, updAll, updateState, jointProb, List.lookup,
    min_def, max_def, fluEPa, fluEPb, fluEPc, fluEPd, coldEPa, coldEPb, coldEPc, coldEPd, coughTable]
  norm_num

lemma couStep12 (rest : List (List PDist × List String)) :
    foldSteps coughTable [("Present", some (0), some (133/1000)), ("Absent", some (1/4000), some (171/200))]
      (([fluEPd, coldEPa], ["Present", "Present"]) :: ([fluEPd, coldEPa], ["Present", "Absent"]) :: ([fluEPd, coldEPa], ["Absent", "Present"]) :: ([fluEPd, coldEPa], ["Absent", "Absent"]) :: rest) =
    foldSteps coughTable [("Present", some (0), some (133/1000)), ("Absent", some (1/4000), some (171/200))] rest := by
  simp [foldSteps, stepPair, updAll, updateState, jointProb, List.lookup,
    min_def, max_def, fluEPa, fluEPb, fluEPc, fluEPd, coldEPa, coldEPb, coldEPc, coldEPd, coughTable]
  norm_num

lemma couStep13 (rest : List (List PDist × List String)) :
    foldSteps coughTable [("Present", some (0), some (133/1000)), ("Absent", some (1/4000), some (171/200))]
      (([fluEPd, coldEPb], ["Present", "Present"]) :: ([fluEPd, coldEPb], ["Present", "Absent"]) :: ([fluEPd, coldEPb], ["Absent", "Present"]) :: ([fluEPd, coldEPb], ["Absent", "Absent"]) :: rest) =
    foldSteps coughTable [("Present", some (0), some (133/1000)), ("Absent", some (1/4000), some (171/200))] rest := by
  simp [foldSteps, stepPair, updAll, updateState, jointProb, List.lookup,
    min_def, max_def, fluEPa, fluEPb, fluEPc, fluEPd, coldEPa, coldEPb, coldEPc, coldEPd, coughTable]
  norm_num

lemma couStep14 (rest : List (List PDist × List String)) :
    foldSteps coughTable [("Present", some (0), some (133/1000)), ("Absent", some (1/4000), some (171/200))]
      (([fluEPd, coldEPc], ["Present", "Present"]) :: ([fluEPd, coldEPc], ["Present", "Absent"]) :: ([fluEPd, coldEPc], ["Absent", "Present"]) :: ([fluEPd, coldEPc], ["Absent", "Absent"]) :: rest) =
    foldSteps coughTable [("Present", some (0), some (133/1000)), ("Absent", some (1/4000), some (171/200))] rest := by
  simp [foldSteps, stepPair, updAll, updateState, jointProb, List.lookup,
    min_def, max_def, fluEPa, fluEPb, fluEPc, fluEPd, coldEPa, coldEPb, coldEPc, coldEPd, coughTable]
  norm_num

lemma couStep15 (rest : List (List PDist × List String)) :
    foldSteps coughTable [("Present", some (0), some (133/1000)), ("Absent", some (1/4000), some (171/200))]
      (([fluEPd, coldEPd], ["Present", "Present"]) :: ([fluEPd, coldEPd], ["Present", "Absent"]) :: ([fluEPd, coldEPd], ["Absent", "Present"]) :: ([fluEPd, coldEPd], ["Absent", "Absent"]) :: rest) =
    foldSteps coughTable [("Present", some (0), some (133/1000)), ("Absent", some (1/4000), some (171/200))] rest := by
  simp [foldSteps, stepPair, updAll, updateState, jointProb, List.lookup,
    min_def, max_def, fluEPa, fluEPb, fluEPc, fluEPd, coldEPa, coldEPb, coldEPc, coldEPd, coughTable]
  norm_num

lemma couPairs : allPairs [[fluEPa, fluEPb, fluEPc, fluEPd], [coldEPa, coldEPb, coldEPc, coldEPd]] =
    [ ([fluEPa, coldEPa], ["Present", "Present"]),
      ([fluEPa, coldEPa], ["Present", "Absent"]),
      ([fluEPa, coldEPa], ["Absent", "Present"]),
      ([fluEPa, coldEPa], ["Absent", "Absent"]),
      ([fluEPa, coldEPb], ["Present", "Present"]),
      ([fluEPa, coldEPb], ["Present", "Absent"]),
      ([fluEPa, coldEPb], ["Absent", "Present"]),
      ([fluEPa, coldEPb], ["Absent", "Absent"]),
      ([fluEPa, coldEPc], ["Present", "Present"]),
      ([fluEPa, coldEPc], ["Present", "Absent"]),
      ([fluEPa, coldEPc], ["Absent", "Present"]),
      ([fluEPa, coldEPc], ["Absent", "Absent"]),
      ([fluEPa, coldEPd], ["Present", "Present"]),
      ([fluEPa, coldEPd], ["Present", "Absent"]),
      ([fluEPa, coldEPd], ["Absent", "Present"]),
      ([fluEPa, coldEPd], ["Absent", "Absent"]),
      ([fluEPb, coldEPa], ["Present", "Present"]),
      ([fluEPb, coldEPa], ["Present", "Absent"]),
      ([fluEPb, coldEPa], ["Absent", "Present"]),
      ([fluEPb, coldEPa], ["Absent", "Absent"]),
      ([fluEPb, coldEPb], ["Present", "Present"]),
      ([fluEPb, coldEPb], ["Present", "Absent"]),
      ([fluEPb, coldEPb], ["Absent", "Present"]),
      ([fluEPb, coldEPb], ["Absent", "Absent"]),
      ([fluEPb, coldEPc], ["Present", "Present"]),
      ([fluEPb, coldEPc], ["Present", "Absent"]),
      ([fluEPb, coldEPc], ["Absent", "Present"]),
      ([fluEPb, coldEPc], ["Absent", "Absent"]),
      ([fluEPb, coldEPd], ["Present", "Present"]),
      ([fluEPb, coldEPd], ["Present", "Absent"]),
      ([fluEPb, coldEPd], ["Absent", "Present"]),
      ([fluEPb, coldEPd], ["Absent", "Absent"]),
      ([fluEPc, coldEPa], ["Present", "Present"]),
      ([fluEPc, coldEPa], ["Present", "Absent"]),
      ([fluEPc, coldEPa], ["Absent", "Present"]),
      ([fluEPc, coldEPa], ["Absent", "Absent"]),
      ([fluEPc, coldEPb], ["Present", "Present"]),
      ([fluEPc, coldEPb], ["Present", "Absent"]),
      ([fluEPc, coldEPb], ["Absent", "Present"]),
      ([fluEPc, coldEPb], ["Absent", "Absent"]),
      ([fluEPc, coldEPc], ["Present", "Present"]),
      ([fluEPc, coldEPc], ["Present", "Absent"]),
      ([fluEPc, coldEPc], ["Absent", "Present"]),
      ([fluEPc, coldEPc], ["Absent", "Absent"]),
      ([fluEPc, coldEPd], ["Present", "Present"]),
      ([fluEPc, coldEPd], ["Present", "Absent"]),
      ([fluEPc, coldEPd], ["Absent", "Present"]),
      ([fluEPc, coldEPd], ["Absent", "Absent"]),
      ([fluEPd, coldEPa], ["Present", "Present"]),
      ([fluEPd, coldEPa], ["Present", "Absent"]),
      ([fluEPd, coldEPa], ["Absent", "Present"]),
      ([fluEPd, coldEPa], ["Absent", "Absent"]),
      ([fluEPd, coldEPb], ["Present", "Present"]),
      ([fluEPd, coldEPb], ["Present", "Absent"]),
      ([fluEPd, coldEPb], ["Absent", "Present"]),
      ([fluEPd, coldEPb], ["Absent", "Absent"]),
      ([fluEPd, coldEPc], ["Present", "Present"]),
      ([fluEPd, coldEPc], ["Present", "Absent"]),
      ([fluEPd, coldEPc], ["Absent", "Present"]),
      ([fluEPd, coldEPc], ["Absent", "Absent"]),
      ([fluEPd, coldEPd], ["Present", "Present"]),
      ([fluEPd, coldEPd], ["Present", "Absent"]),
      ([fluEPd, coldEPd], ["Absent", "Present"]),
      ([fluEPd, coldEPd], ["Absent", "Absent"]) ] := by
  simp only [allPairs, listProd, List.flatMap_cons, List.flatMap_nil, List.map_cons,
    List.map_nil, List.append_nil, List.nil_append, List.cons_append, List.singleton_append,
    fluEPa, fluEPb, fluEPc, fluEPd, coldEPa, coldEPb, coldEPc, coldEPd]

lemma couFold : foldSteps coughTable [("Present", none, none), ("Absent", none, none)]
      (allPairs [[fluEPa, fluEPb, fluEPc, fluEPd], [coldEPa, coldEPb, coldEPc, coldEPd]]) =
    some [("Present", some (0), some (133/1000)), ("Absent", some (1/4000), some (171/200))] := by
  rw [couPairs, couStep0, couStep1, couStep2, couStep3, couStep4, couStep5, couStep6, couStep7, couStep8, couStep9, couStep10, couStep11, couStep12, couStep13, couStep14, couStep15]
  rfl

lemma couFluExt : extremePoints [("Present", (1/20, 1/10)), ("Absent", (9/10, 19/20))] =
    [fluEPa, fluEPb, fluEPc, fluEPd] := by
  simp [extremePoints, corners, normalizeCorner, fluEPa, fluEPb, fluEPc, fluEPd]
  norm_num

lemma couColdExt : extremePoints [("Present", (1/10, 1/5)), ("Absent", (4/5, 9/10))] =
    [coldEPa, coldEPb, coldEPc, coldEPd] := by
  simp [extremePoints, corners, normalizeCorner, coldEPa, coldEPb, coldEPc, coldEPd]
  norm_num

lemma coughMarginal_eval : computeMarginal coughNode =
    some [("Present", (0, 133/1000)), ("Absent", (1/4000, 171/200))] := by
  have h1 : computeMarginalList [fluNode, coldNode] =
      some [[("Present", (1/20, 1/10)), ("Absent", (9/10, 19/20))], [("Present", (1/10, 1/5)), ("Absent", (4/5, 9/10))]] := rfl
  show computeMarginal (CNode.mk "Cough" [fluNode, coldNode] coughTable) = _
  simp only [computeMarginal, Option.bind_eq_bind, h1, Option.some_bind]
  rw [show (coughTable).head? = some (["Present", "Present"], [("Present", (4/5, 19/20)), ("Absent", (1/20, 1/5))]) from rfl]
  simp only [Option.some_bind, List.map_cons, List.map_nil, couFluExt, couColdExt,
    couFold]
  rfl

end Credal

namespace Credal

lemma chainA_eval : computeMarginal chainA =
    some [("a1", (1/2, 1/2)), ("a2", (1/2, 1/2))] := rfl

lemma chainB_eval : computeMarginal chainB =
    some [("b1", (0, 1/2)), ("b2", (0, 1/2))] := by
  simp [chainB, chainA, chainBTable, computeMarginal, computeMarginalList, allPairs,
    listProd, extremePoints, corners, normalizeCorner, foldSteps, stepPair, updAll,
    updateState, jointProb, List.lookup, min_def, max_def]
  norm_num

lemma chainC_eval : computeMarginal chainC =
    some [("c1", (0, 1)), ("c2", (0, 1))] := by
  have hB : computeMarginalList [chainB] = some [[("b1", (0, 1/2)), ("b2", (0, 1/2))]] := by
    simp only [computeMarginalList, Option.bind_eq_bind, chainB_eval, Option.some_bind,
      Option.pure_def, Option.some.injEq]
  show computeMarginal (CNode.mk "C" [chainB] chainCTable) = _
  simp only [computeMarginal, Option.bind_eq_bind, hB, Option.some_bind]
  simp [chainCTable, allPairs, listProd, extremePoints, corners, normalizeCorner,
    foldSteps, stepPair, updAll, updateState, jointProb, List.lookup, min_def, max_def]
  norm_num

lemma chainB2_eval : computeMarginal chainB2 =
    some [("b1", (0, 3/5)), ("b2", (0, 3/5))] := by
  simp [chainB2, chainA2, chainBTable, computeMarginal, computeMarginalList, allPairs,
    listProd, extremePoints, corners, normalizeCorner, foldSteps, stepPair, updAll,
    updateState, jointProb, List.lookup, min_def, max_def]
  norm_num
  simp [foldSteps, stepPair, updAll, updateState, jointProb, List.lookup, min_def, max_def]
  norm_num

lemma propagate_medical : propagate medicalNodes =
    some [("Flu", [("Present", (1/20, 1/10)), ("Absent", (9/10, 19/20))]),
          ("Cold", [("Present", (1/10, 1/5)), ("Absent", (4/5, 9/10))]),
          ("Fever", [("Present", (0, 323/2000)), ("Absent", (0, 171/200))]),
          ("Cough", [("Present", (0, 133/1000)), ("Absent", (1/4000, 171/200))])] := by
  simp only [medicalNodes, propagate, Option.bind_eq_bind,
    show computeMarginal fluNode =
      some [("Present", (1/20, 1/10)), ("Absent", (9/10, 19/20))] from rfl,
    show computeMarginal coldNode =
      some [("Present", (1/10, 1/5)), ("Absent", (4/5, 9/10))] from rfl,
    feverMarginal_eval, coughMarginal_eval, Option.some_bind]
  rfl

/-- C1 counterexample: full propagation on the medical example computes the
Fever Present lower bound as exactly 0, so it is not strictly greater
than 0 and the bounds are not strictly inside the unit interval. -/
theorem feverPresent_lower_is_zero :
    (propagate medicalNodes).bind (fun ms => (ms.lookup "Fever").bind
      (fun m => m.lookup "Present")) = some ((0 : Rat), (323/2000 : Rat))
    ∧ ¬ ((0 : Rat) < 0) := by
  constructor
  · rw [propagate_medical]
    rfl
  · exact lt_irrefl 0

/-- C1 amended: full propagation yields Fever Present bounds `[0, 323/2000]`
and Fever Absent bounds `[0, 171/200]`: both upper bounds are strictly below
1, but both lower bounds equal 0 exactly, because line 86 takes the minimum
over individual parent-assignment contributions (and the `Absent,Absent`
entry has Present low 0) instead of summing the contributions. -/
theorem propagate_medical_fever_bounds :
    (propagate medicalNodes).bind (fun ms => ms.lookup "Fever") =
      some [("Present", ((0 : Rat), (323/2000 : Rat))),
            ("Absent", ((0 : Rat), (171/200 : Rat)))]
    ∧ ((323/2000 : Rat) < 1 ∧ (171/200 : Rat) < 1) := by
  constructor
  · rw [propagate_medical]
    rfl
  · constructor <;> norm_num

/-- C2 counterexample: in the all-point-interval chain `A → B → C`, node B
computes the interval `[0, 1/2]` for each state, which does not collapse to
a point (ordinary forward propagation would give exactly 1/2). -/
theorem chainB_no_collapse :
    computeMarginal chainB = some [("b1", ((0 : Rat), (1/2 : Rat))),
      ("b2", ((0 : Rat), (1/2 : Rat)))]
    ∧ ((0 : Rat) ≠ (1/2 : Rat)) := by
  refine ⟨chainB_eval, ?_⟩
  norm_num

/-- C2 amended: with every table a point table, the engine does not reduce to
forward propagation: the root marginal collapses to its table, but each
child state gets the minimum and maximum over individual parent-assignment
contributions, here `[0, 1/2]` at B and `[0, 1]` at C. -/
theorem chain_point_tables_eval :
    computeMarginal chainA = some [("a1", ((1:Rat)/2, (1:Rat)/2)), ("a2", (1/2, 1/2))]
    ∧ computeMarginal chainB = some [("b1", (0, 1/2)), ("b2", (0, 1/2))]
    ∧ computeMarginal chainC = some [("c1", (0, 1)), ("c2", (0, 1))] :=
  ⟨chainA_eval, chainB_eval, chainC_eval⟩

/-- C3 counterexample: within a single `propagate()` call on the medical
network, the marginal of Flu is computed 3 times (once for its registry
entry and once for each of Fever and Cough, which recurse into it), not at
most once: there is no memoization. -/
theorem propagate_flu_computed_thrice :
    propagateCalls medicalNodes "Flu" = 3
    ∧ ¬ (propagateCalls medicalNodes "Flu" ≤ 1) := by
  constructor <;> decide

/-- C3 amended: `propagate()` has no memoization: each node marginal is
recomputed once per occurrence in the recursion, so each root disease is
computed three times on the medical network while the two symptom leaves
are computed once each. -/
theorem propagate_medical_call_counts :
    propagateCalls medicalNodes "Flu" = 3
    ∧ propagateCalls medicalNodes "Cold" = 3
    ∧ propagateCalls medicalNodes "Fever" = 1
    ∧ propagateCalls medicalNodes "Cough" = 1 := by
  refine ⟨?_, ?_, ?_, ?_⟩ <;> decide

/-- C5 witness: the chain node B with point tables. -/
theorem computeMarginal_bounds_unit_witness :
    nodeValid chainB
    ∧ (∀ p ∈ [("b1", ((0 : Rat), (1/2 : Rat))), ("b2", ((0 : Rat), (1/2 : Rat)))],
        0 ≤ p.2.1 ∧ p.2.1 ≤ p.2.2 ∧ p.2.2 ≤ 1) := by
  have hv : nodeValid chainB := by
    simp only [chainB, chainA, chainBTable, nodeValid, nodesValid, tableValid, margValid,
      ivalValid]
    norm_num
    refine ⟨⟨⟨?_, by decide⟩, ⟨?_, by decide⟩⟩, ⟨?_, by decide⟩⟩ <;>
      rintro a b c (⟨rfl, rfl, rfl⟩ | ⟨rfl, rfl, rfl⟩) <;> norm_num
  exact ⟨hv, computeMarginal_bounds_unit chainB _ hv chainB_eval⟩

/-- C7 witness: a child of the one-state root whose table only has an
unreachable key; the reachable assignment `["u1"]` is missing and the
computation fails. -/
theorem computeMarginal_missing_entry_fails_witness :
    computeMarginalList [rootU] = some [[("u1", ((1 : Rat), (1 : Rat)))]]
    ∧ brokenTable.head? = some (["other"], [("x", (0, 1))])
    ∧ [[("u1", (1 : Rat))]] ∈ listProd ([[("u1", ((1 : Rat), (1 : Rat)))]].map extremePoints)
    ∧ [ "u1" ] ∈ listProd ([[("u1", (1 : Rat))]].map (fun d => d.map Prod.fst))
    ∧ brokenTable.lookup ["u1"] = none
    ∧ computeMarginal (CNode.mk "Broken" [rootU] brokenTable) = none := by
  have h3 : [[("u1", (1 : Rat))]] ∈
      listProd ([[("u1", ((1 : Rat), (1 : Rat)))]].map extremePoints) := by
    simp [listProd, extremePoints, corners, normalizeCorner]
  have h4 : [ "u1" ] ∈ listProd ([[("u1", (1 : Rat))]].map (fun d => d.map Prod.fst)) := by
    simp [listProd]
  refine ⟨rfl, rfl, h3, h4, rfl, ?_⟩
  exact computeMarginal_missing_entry_fails "Broken" rootU [] brokenTable
    [[("u1", (1, 1))]] (["other"], [("x", (0, 1))]) rfl rfl
    [[("u1", 1)]] ["u1"] h3 h4 rfl

/-- C8 witness: a two-state marginal whose all-low corner sums to zero. -/
theorem degenerate_corner_no_renormalize_witness :
    (∀ p ∈ [("s1", ((0 : Rat), (0 : Rat))), ("s2", ((0 : Rat), (1 : Rat)))],
      0 ≤ p.2.1 ∧ 0 ≤ p.2.2)
    ∧ ((∀ v ∈ corners ([("s1", ((0 : Rat), (0 : Rat))), ("s2", ((0 : Rat), (1 : Rat)))].map
          Prod.snd), v.sum = 0 →
        normalizeCorner ([("s1", ((0 : Rat), (0 : Rat))),
            ("s2", ((0 : Rat), (1 : Rat)))].map Prod.fst) v =
          ([("s1", ((0 : Rat), (0 : Rat))), ("s2", ((0 : Rat), (1 : Rat)))].map Prod.fst).zip v
        ∧ (∀ q ∈ normalizeCorner ([("s1", ((0 : Rat), (0 : Rat))),
            ("s2", ((0 : Rat), (1 : Rat)))].map Prod.fst) v, q.2 = 0))
      ∧ (∀ (combo : List PDist) (asn : List String) (d : PDist) (s : String),
          (d, s) ∈ combo.zip asn → (∀ q ∈ d, q.2 = 0) → jointProb combo asn = 0)) := by
  have hpm : ∀ p ∈ [("s1", ((0 : Rat), (0 : Rat))), ("s2", ((0 : Rat), (1 : Rat)))],
      0 ≤ p.2.1 ∧ 0 ≤ p.2.2 := by
    intro p hp
    rcases List.mem_cons.1 hp with rfl | hp
    · norm_num
    · rcases List.mem_cons.1 hp with rfl | hp
      · norm_num
      · cases hp
  exact ⟨hpm, degenerate_corner_no_renormalize _ hpm⟩

end Credal

namespace DS

lemma foldl_combineStep_snd : ∀ (l : List ((List String × Rat) × (List String × Rat)))
    (acc : Mass) (c : Rat),
    (l.foldl combineStep (acc, c)).2 =
      c + ((l.filter (fun pr => (interKey pr.1.1 pr.2.1).isEmpty)).map
        (fun pr => pr.1.2 * pr.2.2)).sum := by
  intro l
  induction l with
  | nil => intro acc c; simp
  | cons pr l ih =>
      intro acc c
      by_cases h : interKey pr.1.1 pr.2.1 = []
      · have hstep : combineStep (acc, c) pr = (acc, c + pr.1.2 * pr.2.2) := by
          simp [combineStep, h]
        have hfil : (pr :: l).filter (fun pr => (interKey pr.1.1 pr.2.1).isEmpty)
            = pr :: l.filter (fun pr => (interKey pr.1.1 pr.2.1).isEmpty) := by
          simp [List.filter_cons, List.isEmpty_iff, h]
        rw [List.foldl_cons, hstep, ih, hfil, List.map_cons, List.sum_cons]
        ring
      · have hstep : combineStep (acc, c) pr =
            (upsert acc (interKey pr.1.1 pr.2.1) (pr.1.2 * pr.2.2), c) := by
          simp [combineStep, h]
        have hfil : (pr :: l).filter (fun pr => (interKey pr.1.1 pr.2.1).isEmpty)
            = l.filter (fun pr => (interKey pr.1.1 pr.2.1).isEmpty) := by
          simp [List.filter_cons, List.isEmpty_iff, h]
        rw [List.foldl_cons, hstep, ih, hfil]

lemma conflictOf_eq_sum (m1 m2 : Mass) :
    conflictOf m1 m2 = (conflictTerms m1 m2).sum := by
  unfold conflictOf combineRaw conflictTerms
  rw [foldl_combineStep_snd]
  ring

lemma pairList_sum (m1 m2 : Mass) :
    ((pairList m1 m2).map (fun pr => pr.1.2 * pr.2.2)).sum = massSum m1 * massSum m2 := by
  induction m1 with
  | nil => simp [pairList, massSum]
  | cons p m1 ih =>
      simp only [pairList, List.flatMap_cons, List.map_append, List.sum_append,
        List.map_map] at ih ⊢
      have hleft : ((m2.map (fun p2 => (p, p2))).map (fun pr => pr.1.2 * pr.2.2)).sum
          = p.2 * massSum m2 := by
        rw [List.map_map]
        have : ((fun pr : (List String × Rat) × (List String × Rat) =>
            pr.1.2 * pr.2.2) ∘ (fun p2 => (p, p2))) = fun p2 => p.2 * p2.2 := by
          funext q
          rfl
        rw [this, List.sum_map_mul_left]
        rfl
      rw [List.map_map] at hleft
      rw [hleft, ih]
      simp only [massSum, List.map_cons, List.sum_cons]
      ring

lemma conflictOf_le_one (m1 m2 : Mass)
    (h1 : ∀ p ∈ m1, 0 ≤ p.2) (h2 : ∀ p ∈ m2, 0 ≤ p.2)
    (hs1 : massSum m1 = 1) (hs2 : massSum m2 = 1) :
    conflictOf m1 m2 ≤ 1 := by
  rw [conflictOf_eq_sum]
  have hsub : List.Sublist (conflictTerms m1 m2)
      ((pairList m1 m2).map (fun pr => pr.1.2 * pr.2.2)) := by
    unfold conflictTerms
    exact List.Sublist.map _ (List.filter_sublist _)
  have hpos : ∀ x ∈ (pairList m1 m2).map (fun pr => pr.1.2 * pr.2.2), 0 ≤ x := by
    intro x hx
    rcases List.mem_map.1 hx with ⟨pr, hpr, rfl⟩
    simp only [pairList, List.mem_flatMap, List.mem_map] at hpr
    rcases hpr with ⟨p1, hp1, p2, hp2, rfl⟩
    exact mul_nonneg (h1 _ hp1) (h2 _ hp2)
  calc (conflictTerms m1 m2).sum
      ≤ ((pairList m1 m2).map (fun pr => pr.1.2 * pr.2.2)).sum :=
        List.Sublist.sum_le_sum hsub hpos
    _ = 1 := by rw [pairList_sum, hs1, hs2]; norm_num

/-- C9: for mass functions with nonnegative weights summing to 1, Dempster
combination raises the total-conflict error exactly when the accumulated
conflict mass reaches 1 (the error branch performs no division), and below
total conflict it returns the accumulated intersections normalized by
`1 - conflict`. -/
theorem combine_mass_total_conflict (m1 m2 : Mass)
    (h1 : ∀ p ∈ m1, 0 ≤ p.2) (h2 : ∀ p ∈ m2, 0 ≤ p.2)
    (hs1 : massSum m1 = 1) (hs2 : massSum m2 = 1) :
    (combine_mass m1 m2 = .error "Total conflict: cannot combine (K = 1)."
      ↔ conflictOf m1 m2 = 1)
    ∧ (conflictOf m1 m2 < 1 →
        combine_mass m1 m2 = .ok ((combineRaw m1 m2).1.map
          (fun p => (p.1, p.2 / (1 - conflictOf m1 m2))))) := by
  have hle := conflictOf_le_one m1 m2 h1 h2 hs1 hs2
  unfold conflictOf at hle ⊢
  simp only [combine_mass]
  by_cases hlt : (combineRaw m1 m2).2 < 1
  · rw [if_pos hlt]
    refine ⟨⟨?_, ?_⟩, ?_⟩
    · intro herr
      cases herr
    · intro heq
      rw [heq] at hlt
      exact absurd hlt (lt_irrefl 1)
    · intro _
      rfl
  · rw [if_neg hlt]
    refine ⟨⟨?_, ?_⟩, ?_⟩
    · intro _
      exact le_antisymm hle (not_lt.1 hlt)
    · intro _
      rfl
    · intro h
      exact absurd h hlt

/-- C9 witness: combining the Flu evidence mass with itself. -/
theorem combine_mass_total_conflict_witness :
    (∀ p ∈ mFlu, 0 ≤ p.2) ∧ massSum mFlu = 1
    ∧ ((combine_mass mFlu mFlu = .error "Total conflict: cannot combine (K = 1)."
        ↔ conflictOf mFlu mFlu = 1)
      ∧ (conflictOf mFlu mFlu < 1 →
          combine_mass mFlu mFlu = .ok ((combineRaw mFlu mFlu).1.map
            (fun p => (p.1, p.2 / (1 - conflictOf mFlu mFlu)))))) := by
  have hpos : ∀ p ∈ mFlu, 0 ≤ p.2 := by
    intro p hp
    rcases List.mem_cons.1 hp with rfl | hp
    · norm_num
    · rcases List.mem_cons.1 hp with rfl | hp
      · norm_num
      · rcases List.mem_cons.1 hp with rfl | hp
        · norm_num
        · cases hp
  have hsum : massSum mFlu = 1 := by
    simp only [massSum, mFlu, List.map_cons, List.map_nil, List.sum_cons, List.sum_nil]
    norm_num
  exact ⟨hpos, hsum, combine_mass_total_conflict mFlu mFlu hpos hpos hsum hsum⟩

lemma belief_le_plausibility_aux (A : List String) :
    ∀ (m : Mass) (a b : Rat), a ≤ b →
    (∀ p ∈ m, 0 ≤ p.2) → (∀ p ∈ m, p.1 = [] → p.2 = 0) →
    m.foldl (fun acc p => if p.1.all (fun x => A.contains x) then acc + p.2 else acc) a ≤
    m.foldl (fun acc p => if p.1.any (fun x => A.contains x) then acc + p.2 else acc) b := by
  intro m
  induction m with
  | nil => intro a b hab _ _; exact hab
  | cons p m ih =>
      intro a b hab hpos hemp
      have hp0 : 0 ≤ p.2 := hpos p (by simp)
      have htp : ∀ q ∈ m, 0 ≤ q.2 := fun q hq => hpos q (by simp [hq])
      have hte : ∀ q ∈ m, q.1 = [] → q.2 = 0 := fun q hq => hemp q (by simp [hq])
      simp only [List.foldl_cons]
      by_cases hall : (p.1.all fun x => A.contains x) = true
      · by_cases hany : (p.1.any fun x => A.contains x) = true
        · rw [if_pos hall, if_pos hany]
          exact ih _ _ (by linarith) htp hte
        · have hnil : p.1 = [] := by
            cases hl : p.1 with
            | nil => rfl
            | cons x xs =>
                exfalso
                rw [hl] at hall hany
                simp only [List.all_cons, Bool.and_eq_true] at hall
                apply hany
                simp only [List.any_cons, Bool.or_eq_true]
                exact Or.inl hall.1
          rw [if_pos hall, if_neg hany, hemp p (by simp) hnil]
          exact ih _ _ (by linarith) htp hte
      · by_cases hany : (p.1.any fun x => A.contains x) = true
        · rw [if_neg hall, if_pos hany]
          exact ih _ _ (by linarith) htp hte
        · rw [if_neg hall, if_neg hany]
          exact ih _ _ hab htp hte

/-- C10: with nonnegative weights and no mass on the empty label tuple,
belief of any label set is at most its plausibility; but a mass function
with positive weight on the empty tuple — which marginalize_mass produces
here — violates the inequality, since belief counts the empty subset and
plausibility does not. -/
theorem belief_le_plausibility :
    (∀ (m : Mass) (A : List String), (∀ p ∈ m, 0 ≤ p.2) →
      (∀ p ∈ m, p.1 = [] → p.2 = 0) → belief m A ≤ plausibility m A)
    ∧ (marginalize_mass [(["Flu"], 1)] [] = [([], 1)]
      ∧ ¬ belief (marginalize_mass [(["Flu"], 1)] []) ["Flu"] ≤
          plausibility (marginalize_mass [(["Flu"], 1)] []) ["Flu"]) := by
  constructor
  · intro m A hpos hemp
    exact belief_le_plausibility_aux A m 0 0 le_rfl hpos hemp
  · constructor
    · rfl
    · have hb : belief (marginalize_mass [(["Flu"], 1)] []) ["Flu"] = 1 := by
        simp [marginalize_mass, upsert, belief]
      have hp : plausibility (marginalize_mass [(["Flu"], 1)] []) ["Flu"] = 0 := by
        simp [marginalize_mass, upsert, plausibility]
      rw [hb, hp]
      norm_num

/-- C10 witness: the Flu evidence mass against the singleton set Flu. -/
theorem belief_le_plausibility_witness :
    (∀ p ∈ mFlu, 0 ≤ p.2) ∧ (∀ p ∈ mFlu, p.1 = [] → p.2 = 0)
    ∧ belief mFlu ["Flu"] ≤ plausibility mFlu ["Flu"] := by
  have hpos : ∀ p ∈ mFlu, 0 ≤ p.2 := by
    intro p hp
    rcases List.mem_cons.1 hp with rfl | hp
    · norm_num
    · rcases List.mem_cons.1 hp with rfl | hp
      · norm_num
      · rcases List.mem_cons.1 hp with rfl | hp
        · norm_num
        · cases hp
  have hemp : ∀ p ∈ mFlu, p.1 = [] → p.2 = 0 := by
    intro p hp
    rcases List.mem_cons.1 hp with rfl | hp
    · intro h; cases h
    · rcases List.mem_cons.1 hp with rfl | hp
      · intro h; cases h
      · rcases List.mem_cons.1 hp with rfl | hp
        · intro h; cases h
        · cases hp
  exact ⟨hpos, hemp, belief_le_plausibility.1 mFlu ["Flu"] hpos hemp⟩

end DS

namespace Credal

lemma wguard_nonneg {x total : Rat} (hx : 0 ≤ x) : 0 ≤ wguard x total := by
  unfold wguard
  by_cases h : 0 < total
  · rw [if_pos h]
    positivity
  · rw [if_neg h]
    exact hx

lemma wguard_mono_low {l x U R : Rat} (hl0 : 0 ≤ l) (hlx : l ≤ x)
    (hR0 : 0 ≤ R) (hRU : R ≤ U) : wguard l (l + U) ≤ wguard x (x + R) := by
  have hx0 : 0 ≤ x := le_trans hl0 hlx
  have hU0 : 0 ≤ U := le_trans hR0 hRU
  unfold wguard
  by_cases hD : 0 < l + U
  · rw [if_pos hD]
    by_cases hE : 0 < x + R
    · rw [if_pos hE]
      rw [div_le_div_iff hD hE]
      nlinarith
    · rw [if_neg hE]
      have hx : x = 0 := le_antisymm (by linarith [le_of_not_lt hE]) hx0
      have hl : l = 0 := le_antisymm (by linarith) hl0
      rw [hl, hx]
      simp
  · rw [if_neg hD]
    have hl : l = 0 := le_antisymm (by linarith [le_of_not_lt hD]) hl0
    rw [hl]
    by_cases hE : 0 < x + R
    · rw [if_pos hE]
      positivity
    · rw [if_neg hE]
      exact hx0

lemma wguard_mono_high {h x L R : Rat} (hx0 : 0 ≤ x) (hxh : x ≤ h)
    (hL0 : 0 ≤ L) (hLR : L ≤ R) : wguard x (x + R) ≤ wguard h (h + L) := by
  have hh0 : 0 ≤ h := le_trans hx0 hxh
  have hR0 : 0 ≤ R := le_trans hL0 hLR
  unfold wguard
  by_cases hE : 0 < x + R
  · rw [if_pos hE]
    by_cases hD : 0 < h + L
    · rw [if_pos hD]
      rw [div_le_div_iff hE hD]
      nlinarith
    · rw [if_neg hD]
      have hh : h = 0 := le_antisymm (by linarith [le_of_not_lt hD]) hh0
      have hx : x = 0 := le_antisymm (by linarith) hx0
      rw [hx, hh] at *
      simp
  · rw [if_neg hE]
    have hx : x = 0 := le_antisymm (by linarith [le_of_not_lt hE]) hx0
    rw [hx]
    by_cases hD : 0 < h + L
    · rw [if_pos hD]
      positivity
    · rw [if_neg hD]
      exact hh0

end Credal

namespace Credal

lemma lookup_map_snd {α β γ : Type} [BEq α] :
    ∀ (l : List (α × β)) (g : β → γ) (s : α),
    (l.map (fun p => (p.1, g p.2))).lookup s = (l.lookup s).map g := by
  intro l g s
  induction l with
  | nil => rfl
  | cons p l ih =>
      obtain ⟨k, b⟩ := p
      simp only [List.map_cons, List.lookup_cons]
      cases h : s == k with
      | true => simp
      | false => simpa using ih

lemma lookup_zip_split {s : String} :
    ∀ (k₁ : List String) (v₁ : List Rat) (k₂ : List String) (v₂ : List Rat) (x : Rat),
    k₁.length = v₁.length → s ∉ k₁ →
    ((k₁ ++ s :: k₂).zip (v₁ ++ x :: v₂)).lookup s = some x := by
  intro k₁
  induction k₁ with
  | nil =>
      intro v₁ k₂ v₂ x hlen _
      have : v₁ = [] := List.length_eq_zero.1 hlen.symm
      subst this
      simp [List.lookup_cons]
  | cons a k₁ ih =>
      intro v₁ k₂ v₂ x hlen hs
      cases v₁ with
      | nil => cases hlen
      | cons b v₁ =>
          have hne : (s == a) = false := by
            refine beq_eq_false_iff_ne.2 ?_
            intro h
            exact hs (by simp [h])
          simp only [List.cons_append, List.zip_cons_cons, List.lookup_cons, hne]
          exact ih v₁ k₂ v₂ x (by simpa using hlen) (fun h => hs (by simp [h]))

lemma normalizeCorner_lookup {k₁ k₂ : List String} {v₁ v₂ : List Rat} {s : String} {x : Rat}
    (hlen : k₁.length = v₁.length) (hs : s ∉ k₁) :
    (normalizeCorner (k₁ ++ s :: k₂) (v₁ ++ x :: v₂)).lookup s
      = some (wguard x (v₁ ++ x :: v₂).sum) := by
  simp only [normalizeCorner, wguard]
  by_cases h : 0 < (v₁ ++ x :: v₂).sum
  · rw [if_pos h, if_pos h]
    rw [lookup_map_snd ((k₁ ++ s :: k₂).zip (v₁ ++ x :: v₂))
      (fun y => y / (v₁ ++ x :: v₂).sum) s]
    rw [lookup_zip_split k₁ v₁ k₂ v₂ x hlen hs]
    rfl
  · rw [if_neg h, if_neg h]
    exact lookup_zip_split k₁ v₁ k₂ v₂ x hlen hs

lemma forall₂_append_cons_split {α β : Type} {R : α → β → Prop} :
    ∀ {l₁ : List β} {a : β} {l₂ : List β} {v : List α},
    List.Forall₂ R v (l₁ ++ a :: l₂) →
    ∃ v₁ y v₂, v = v₁ ++ y :: v₂ ∧ List.Forall₂ R v₁ l₁ ∧ R y a ∧ List.Forall₂ R v₂ l₂ := by
  intro l₁
  induction l₁ with
  | nil =>
      intro a l₂ v h
      simp only [List.nil_append] at h
      cases h with
      | cons hy hrest =>
          rename_i y v'
          exact ⟨[], y, v', by simp, .nil, hy, hrest⟩
  | cons b l₁ ih =>
      intro a l₂ v h
      simp only [List.cons_append] at h
      cases h with
      | cons hy hrest =>
          rename_i y v'
          rcases ih hrest with ⟨v₁, z, v₂, rfl, h₁, h₂, h₃⟩
          exact ⟨y :: v₁, z, v₂, by simp, .cons hy h₁, h₂, h₃⟩

lemma lowFocus_sel (pm : Marg) (s : String) :
    List.Forall₂ (fun x iv => x = iv.1 ∨ x = iv.2) (lowFocus pm s) (pm.map Prod.snd) := by
  induction pm with
  | nil => exact .nil
  | cons p pm ih =>
      simp only [lowFocus, List.map_cons] at ih ⊢
      by_cases h : p.1 = s
      · rw [if_pos h]
        exact .cons (Or.inl rfl) ih
      · rw [if_neg h]
        exact .cons (Or.inr rfl) ih

lemma highFocus_sel (pm : Marg) (s : String) :
    List.Forall₂ (fun x iv => x = iv.1 ∨ x = iv.2) (highFocus pm s) (pm.map Prod.snd) := by
  induction pm with
  | nil => exact .nil
  | cons p pm ih =>
      simp only [highFocus, List.map_cons] at ih ⊢
      by_cases h : p.1 = s
      · rw [if_pos h]
        exact .cons (Or.inr rfl) ih
      · rw [if_neg h]
        exact .cons (Or.inl rfl) ih

lemma lowFocus_split {pm₁ pm₂ : Marg} {s : String} {iv : IVal}
    (h1 : s ∉ pm₁.map Prod.fst) (h2 : s ∉ pm₂.map Prod.fst) :
    lowFocus (pm₁ ++ (s, iv) :: pm₂) s
      = (pm₁.map (fun p => p.2.2)) ++ iv.1 :: (pm₂.map (fun p => p.2.2)) := by
  unfold lowFocus
  rw [List.map_append, List.map_cons]
  congr 1
  · refine List.map_congr_left ?_
    intro p hp
    rw [if_neg]
    intro h
    exact h1 (List.mem_map.2 ⟨p, hp, h⟩)
  · congr 1
    · simp
    · refine List.map_congr_left ?_
      intro p hp
      rw [if_neg]
      intro h
      exact h2 (List.mem_map.2 ⟨p, hp, h⟩)

lemma highFocus_split {pm₁ pm₂ : Marg} {s : String} {iv : IVal}
    (h1 : s ∉ pm₁.map Prod.fst) (h2 : s ∉ pm₂.map Prod.fst) :
    highFocus (pm₁ ++ (s, iv) :: pm₂) s
      = (pm₁.map (fun p => p.2.1)) ++ iv.2 :: (pm₂.map (fun p => p.2.1)) := by
  unfold highFocus
  rw [List.map_append, List.map_cons]
  congr 1
  · refine List.map_congr_left ?_
    intro p hp
    rw [if_neg]
    intro h
    exact h1 (List.mem_map.2 ⟨p, hp, h⟩)
  · congr 1
    · simp
    · refine List.map_congr_left ?_
      intro p hp
      rw [if_neg]
      intro h
      exact h2 (List.mem_map.2 ⟨p, hp, h⟩)

lemma sum_le_of_forall₂ : ∀ {l₁ l₂ : List Rat},
    List.Forall₂ (· ≤ ·) l₁ l₂ → l₁.sum ≤ l₂.sum := by
  intro l₁ l₂ h
  induction h with
  | nil => exact le_refl _
  | @cons a b t₁ t₂ hab _ ih =>
      simp only [List.sum_cons]
      exact add_le_add hab ih

lemma forall₂_swap {α β : Type} {R : α → β → Prop} :
    ∀ {l₁ : List α} {l₂ : List β},
    List.Forall₂ R l₁ l₂ → List.Forall₂ (fun b a => R a b) l₂ l₁ := by
  intro l₁ l₂ h
  induction h with
  | nil => exact .nil
  | cons hab _ ih => exact .cons hab ih

lemma forall₂_lookup {β γ : Type} {R : β → γ → Prop} {K : Type} [BEq K] :
    ∀ {t : List (K × β)} {t' : List (K × γ)},
    List.Forall₂ (fun r r' => r.1 = r'.1 ∧ R r.2 r'.2) t t' →
    ∀ {k : K} {v : β}, t.lookup k = some v → ∃ v', t'.lookup k = some v' ∧ R v v' := by
  intro t t' h
  induction h with
  | nil => intro k v hv; cases hv
  | @cons r r' t t' hrr _ ih =>
      intro k v hv
      rw [show r = (r.1, r.2) from rfl] at hv
      rw [show r' = (r'.1, r'.2) from rfl]
      rw [List.lookup_cons] at hv
      rw [List.lookup_cons]
      rw [← hrr.1]
      cases hk : k == r.1 with
      | true =>
          rw [hk] at hv
          simp only [Option.some.injEq] at hv
          subst hv
          exact ⟨r'.2, by simp, hrr.2⟩
      | false =>
          rw [hk] at hv
          simpa using ih hv

lemma forall₂_head? {α β : Type} {R : α → β → Prop} {l : List α} {l' : List β} {a : α}
    (h : List.Forall₂ R l l') (ha : l.head? = some a) :
    ∃ b, l'.head? = some b ∧ R a b := by
  cases h with
  | nil => cases ha
  | cons hab _ =>
      simp only [List.head?_cons, Option.some.injEq] at ha
      subst ha
      exact ⟨_, rfl, hab⟩

end Credal

namespace Credal

lemma forall₂_imp_mem {α β : Type} {R S : α → β → Prop} :
    ∀ {l₁ : List α} {l₂ : List β},
    (∀ a b, a ∈ l₁ → b ∈ l₂ → R a b → S a b) →
    List.Forall₂ R l₁ l₂ → List.Forall₂ S l₁ l₂ := by
  intro l₁ l₂ himp h
  induction h with
  | nil => exact .nil
  | @cons a b t₁ t₂ hab _ ih =>
      refine .cons (himp a b (by simp) (by simp) hab) ?_
      exact ih (fun x y hx hy => himp x y (by simp [hx]) (by simp [hy]))

lemma split_sum (v₁ v₂ : List Rat) (x : Rat) :
    (v₁ ++ x :: v₂).sum = x + (v₁.sum + v₂.sum) := by
  simp only [List.sum_append, List.sum_cons]
  ring

lemma sel_nonneg {pm : Marg} (hval : ∀ p ∈ pm, 0 ≤ p.2.1 ∧ p.2.1 ≤ p.2.2)
    {v : List Rat}
    (hsel : List.Forall₂ (fun x iv => x = iv.1 ∨ x = iv.2) v (pm.map Prod.snd)) :
    ∀ y ∈ v, 0 ≤ y := by
  intro y hy
  rcases forall₂_mem_left hsel hy with ⟨ivq, hivq, hcase⟩
  rcases List.mem_map.1 hivq with ⟨p, hp, rfl⟩
  rcases hcase with rfl | rfl
  · exact (hval p hp).1
  · exact le_trans (hval p hp).1 (hval p hp).2

lemma sel_le_high {pm : Marg} (hval : ∀ p ∈ pm, 0 ≤ p.2.1 ∧ p.2.1 ≤ p.2.2)
    {v : List Rat}
    (hsel : List.Forall₂ (fun x iv => x = iv.1 ∨ x = iv.2) v (pm.map Prod.snd)) :
    v.sum ≤ (pm.map (fun p => p.2.2)).sum := by
  refine sum_le_of_forall₂ ?_
  rw [List.forall₂_map_right_iff]
  rw [List.forall₂_map_right_iff] at hsel
  refine forall₂_imp_mem ?_ hsel
  intro y p _ hp hcase
  rcases hcase with rfl | rfl
  · exact (hval p hp).2
  · exact le_refl _

lemma low_le_sel {pm : Marg} (hval : ∀ p ∈ pm, 0 ≤ p.2.1 ∧ p.2.1 ≤ p.2.2)
    {v : List Rat}
    (hsel : List.Forall₂ (fun x iv => x = iv.1 ∨ x = iv.2) v (pm.map Prod.snd)) :
    (pm.map (fun p => p.2.1)).sum ≤ v.sum := by
  have hrev : List.Forall₂ (fun x y => x ≤ y) (pm.map (fun p => p.2.1)) v := by
    rw [List.forall₂_map_right_iff] at hsel
    rw [List.forall₂_map_left_iff]
    refine forall₂_imp_mem ?_ (forall₂_swap hsel)
    intro p y hp _ hcase
    rcases hcase with rfl | rfl
    · exact le_refl _
    · exact (hval p hp).2
  exact sum_le_of_forall₂ hrev

lemma low_nonneg_sum {pm : Marg} (hval : ∀ p ∈ pm, 0 ≤ p.2.1 ∧ p.2.1 ≤ p.2.2) :
    0 ≤ (pm.map (fun p => p.2.1)).sum := by
  refine List.sum_nonneg ?_
  intro y hy
  rcases List.mem_map.1 hy with ⟨p, hp, rfl⟩
  exact (hval p hp).1

lemma high_sum_le_high_sum {pm pm' : Marg}
    (hval : ∀ p ∈ pm, 0 ≤ p.2.1 ∧ p.2.1 ≤ p.2.2)
    (hw : List.Forall₂ (fun p q => p.1 = q.1 ∧ q.2.1 ≤ p.2.1 ∧ p.2.2 ≤ q.2.2) pm pm') :
    (pm.map (fun p => p.2.2)).sum ≤ (pm'.map (fun p => p.2.2)).sum := by
  refine sum_le_of_forall₂ ?_
  rw [List.forall₂_map_left_iff, List.forall₂_map_right_iff]
  exact hw.imp (fun a b h => h.2.2)

lemma low_sum_le_low_sum {pm pm' : Marg}
    (hw : List.Forall₂ (fun p q => p.1 = q.1 ∧ q.2.1 ≤ p.2.1 ∧ p.2.2 ≤ q.2.2) pm pm') :
    (pm'.map (fun p => p.2.1)).sum ≤ (pm.map (fun p => p.2.1)).sum := by
  refine sum_le_of_forall₂ ?_
  rw [List.forall₂_map_left_iff, List.forall₂_map_right_iff]
  exact (forall₂_swap hw).imp (fun a b h => h.2.1)

lemma high_sum_nonneg {pm : Marg} (hval : ∀ p ∈ pm, 0 ≤ p.2.1 ∧ p.2.1 ≤ p.2.2) :
    0 ≤ (pm.map (fun p => p.2.2)).sum := by
  refine List.sum_nonneg ?_
  intro y hy
  rcases List.mem_map.1 hy with ⟨p, hp, rfl⟩
  exact le_trans (hval p hp).1 (hval p hp).2

lemma corner_coord_bounds {pm₁ pm₂ : Marg} {s : String} {iv : IVal}
    (h1 : s ∉ pm₁.map Prod.fst) (h2 : s ∉ pm₂.map Prod.fst)
    (hval : ∀ p ∈ pm₁ ++ (s, iv) :: pm₂, 0 ≤ p.2.1 ∧ p.2.1 ≤ p.2.2)
    {v : List Rat} (hv : v ∈ corners ((pm₁ ++ (s, iv) :: pm₂).map Prod.snd)) :
    ∃ c, (normalizeCorner ((pm₁ ++ (s, iv) :: pm₂).map Prod.fst) v).lookup s = some c
      ∧ wguard iv.1 (lowFocus (pm₁ ++ (s, iv) :: pm₂) s).sum ≤ c
      ∧ c ≤ wguard iv.2 (highFocus (pm₁ ++ (s, iv) :: pm₂) s).sum := by
  have hval₁ : ∀ p ∈ pm₁, 0 ≤ p.2.1 ∧ p.2.1 ≤ p.2.2 :=
    fun p hp => hval p (by simp [hp])
  have hval₂ : ∀ p ∈ pm₂, 0 ≤ p.2.1 ∧ p.2.1 ≤ p.2.2 :=
    fun p hp => hval p (by simp [hp])
  have hiv : 0 ≤ iv.1 ∧ iv.1 ≤ iv.2 := by
    have := hval (s, iv) (by simp)
    exact ⟨this.1, this.2⟩
  have hsel := corners_sel hv
  rw [List.map_append, List.map_cons] at hsel
  rcases forall₂_append_cons_split hsel with ⟨v₁, x, v₂, rfl, hs₁, hsx, hs₂⟩
  have hlen : (pm₁.map Prod.fst).length = v₁.length := by
    have := hs₁.length_eq
    simp only [List.length_map] at this ⊢
    omega
  have hkeys : (pm₁ ++ (s, iv) :: pm₂).map Prod.fst
      = (pm₁.map Prod.fst) ++ s :: (pm₂.map Prod.fst) := by
    simp
  have hcoord : (normalizeCorner ((pm₁ ++ (s, iv) :: pm₂).map Prod.fst)
      (v₁ ++ x :: v₂)).lookup s = some (wguard x (v₁ ++ x :: v₂).sum) := by
    rw [hkeys]
    exact normalizeCorner_lookup hlen h1
  refine ⟨wguard x (v₁ ++ x :: v₂).sum, hcoord, ?_, ?_⟩
  · rw [lowFocus_split h1 h2, split_sum, split_sum]
    have hx0 : iv.1 ≤ x := by
      rcases hsx with rfl | rfl
      · exact le_refl _
      · exact hiv.2
    refine wguard_mono_low hiv.1 hx0 ?_ ?_
    · have hnn₁ := sel_nonneg hval₁ hs₁
      have hnn₂ := sel_nonneg hval₂ hs₂
      have := List.sum_nonneg hnn₁
      have := List.sum_nonneg hnn₂
      linarith
    · have hle₁ := sel_le_high hval₁ hs₁
      have hle₂ := sel_le_high hval₂ hs₂
      linarith
  · rw [highFocus_split h1 h2, split_sum, split_sum]
    have hx0 : x ≤ iv.2 := by
      rcases hsx with rfl | rfl
      · exact hiv.2
      · exact le_refl _
    have hxnn : 0 ≤ x := by
      rcases hsx with rfl | rfl
      · exact hiv.1
      · exact le_trans hiv.1 hiv.2
    refine wguard_mono_high hxnn hx0 ?_ ?_
    · have := low_nonneg_sum hval₁
      have := low_nonneg_sum hval₂
      linarith
    · have hle₁ := low_le_sel hval₁ hs₁
      have hle₂ := low_le_sel hval₂ hs₂
      linarith

lemma lowFocus_coord_mono {pm₁ pm₂ pm₁' pm₂' : Marg} {s : String} {iv iv' : IVal}
    (h1 : s ∉ pm₁.map Prod.fst) (h2 : s ∉ pm₂.map Prod.fst)
    (h1' : s ∉ pm₁'.map Prod.fst) (h2' : s ∉ pm₂'.map Prod.fst)
    (hval : ∀ p ∈ pm₁ ++ (s, iv) :: pm₂, 0 ≤ p.2.1 ∧ p.2.1 ≤ p.2.2)
    (hval' : ∀ p ∈ pm₁' ++ (s, iv') :: pm₂', 0 ≤ p.2.1 ∧ p.2.1 ≤ p.2.2)
    (hw₁ : List.Forall₂ (fun p q => p.1 = q.1 ∧ q.2.1 ≤ p.2.1 ∧ p.2.2 ≤ q.2.2) pm₁ pm₁')
    (hwiv : iv'.1 ≤ iv.1 ∧ iv.2 ≤ iv'.2)
    (hw₂ : List.Forall₂ (fun p q => p.1 = q.1 ∧ q.2.1 ≤ p.2.1 ∧ p.2.2 ≤ q.2.2) pm₂ pm₂') :
    wguard iv'.1 (lowFocus (pm₁' ++ (s, iv') :: pm₂') s).sum
      ≤ wguard iv.1 (lowFocus (pm₁ ++ (s, iv) :: pm₂) s).sum := by
  have hval₁ : ∀ p ∈ pm₁, 0 ≤ p.2.1 ∧ p.2.1 ≤ p.2.2 := fun p hp => hval p (by simp [hp])
  have hval₂ : ∀ p ∈ pm₂, 0 ≤ p.2.1 ∧ p.2.1 ≤ p.2.2 := fun p hp => hval p (by simp [hp])
  have hval₁' : ∀ p ∈ pm₁', 0 ≤ p.2.1 ∧ p.2.1 ≤ p.2.2 := fun p hp => hval' p (by simp [hp])
  have hiv' : 0 ≤ iv'.1 := (hval' (s, iv') (by simp)).1
  rw [lowFocus_split h1 h2, lowFocus_split h1' h2', split_sum, split_sum]
  refine wguard_mono_low hiv' hwiv.1 ?_ ?_
  · have := high_sum_nonneg hval₁
    have := high_sum_nonneg hval₂
    linarith
  · have := high_sum_le_high_sum hval₁ hw₁
    have := high_sum_le_high_sum hval₂ hw₂
    linarith

lemma highFocus_coord_mono {pm₁ pm₂ pm₁' pm₂' : Marg} {s : String} {iv iv' : IVal}
    (h1 : s ∉ pm₁.map Prod.fst) (h2 : s ∉ pm₂.map Prod.fst)
    (h1' : s ∉ pm₁'.map Prod.fst) (h2' : s ∉ pm₂'.map Prod.fst)
    (hval : ∀ p ∈ pm₁ ++ (s, iv) :: pm₂, 0 ≤ p.2.1 ∧ p.2.1 ≤ p.2.2)
    (hval' : ∀ p ∈ pm₁' ++ (s, iv') :: pm₂', 0 ≤ p.2.1 ∧ p.2.1 ≤ p.2.2)
    (hw₁ : List.Forall₂ (fun p q => p.1 = q.1 ∧ q.2.1 ≤ p.2.1 ∧ p.2.2 ≤ q.2.2) pm₁ pm₁')
    (hwiv : iv'.1 ≤ iv.1 ∧ iv.2 ≤ iv'.2)
    (hw₂ : List.Forall₂ (fun p q => p.1 = q.1 ∧ q.2.1 ≤ p.2.1 ∧ p.2.2 ≤ q.2.2) pm₂ pm₂') :
    wguard iv.2 (highFocus (pm₁ ++ (s, iv) :: pm₂) s).sum
      ≤ wguard iv'.2 (highFocus (pm₁' ++ (s, iv') :: pm₂') s).sum := by
  have hval₂' : ∀ p ∈ pm₂', 0 ≤ p.2.1 ∧ p.2.1 ≤ p.2.2 := fun p hp => hval' p (by simp [hp])
  have hval₁' : ∀ p ∈ pm₁', 0 ≤ p.2.1 ∧ p.2.1 ≤ p.2.2 := fun p hp => hval' p (by simp [hp])
  have hiv : 0 ≤ iv.2 := by
    have := hval (s, iv) (by simp)
    exact le_trans this.1 this.2
  rw [highFocus_split h1 h2, highFocus_split h1' h2', split_sum, split_sum]
  refine wguard_mono_high hiv hwiv.2 ?_ ?_
  · have := low_nonneg_sum hval₁'
    have := low_nonneg_sum hval₂'
    linarith
  · have := low_sum_le_low_sum hw₁
    have := low_sum_le_low_sum hw₂
    linarith

end Credal

namespace Credal

lemma foldl_mul_init : ∀ (xs : List Rat) (ix : Rat),
    xs.foldl (· * ·) ix = ix * xs.foldl (· * ·) 1 := by
  intro xs
  induction xs with
  | nil => intro ix; simp
  | cons x xs ih =>
      intro ix
      simp only [List.foldl_cons]
      rw [ih (ix * x), ih (1 * x)]
      ring

lemma jointProb_nil (asn : List String) : jointProb [] asn = 1 := rfl

lemma jointProb_cons (d : PDist) (combo : List PDist) (a : String) (asn : List String) :
    jointProb (d :: combo) (a :: asn) = ((d.lookup a).getD 0) * jointProb combo asn := by
  unfold jointProb
  simp only [List.zip_cons_cons, List.map_cons, List.foldl_cons]
  rw [foldl_mul_init]
  ring

lemma ivalWide_def {iv iv' : IVal} (h : ivalWide iv iv') : iv'.1 ≤ iv.1 ∧ iv.2 ≤ iv'.2 := h

lemma mem_split_nodup {pm : Marg} (hnd : (pm.map Prod.fst).Nodup) {s : String}
    (hs : s ∈ pm.map Prod.fst) :
    ∃ pm₁ iv pm₂, pm = pm₁ ++ (s, iv) :: pm₂
      ∧ s ∉ pm₁.map Prod.fst ∧ s ∉ pm₂.map Prod.fst := by
  rcases List.mem_map.1 hs with ⟨p, hp, rfl⟩
  rcases List.append_of_mem hp with ⟨l₁, l₂, rfl⟩
  rw [List.map_append, List.map_cons, List.nodup_append] at hnd
  obtain ⟨h₁, h₂, hdisj⟩ := hnd
  rw [List.nodup_cons] at h₂
  exact ⟨l₁, p.2, l₂, by simp, fun h => hdisj h (by simp), h₂.1⟩

lemma forall₂_split_left {α β : Type} {R : α → β → Prop}
    {l₁ : List α} {a : α} {l₂ : List α} {w : List β}
    (h : List.Forall₂ R (l₁ ++ a :: l₂) w) :
    ∃ w₁ b w₂, w = w₁ ++ b :: w₂ ∧ List.Forall₂ R l₁ w₁ ∧ R a b ∧ List.Forall₂ R l₂ w₂ := by
  rcases forall₂_append_cons_split (forall₂_swap h) with ⟨w₁, b, w₂, rfl, h₁, h₂, h₃⟩
  exact ⟨w₁, b, w₂, rfl, forall₂_swap h₁, h₂, forall₂_swap h₃⟩

lemma margWide_keys {m m' : Marg} (h : margWide m m') : m'.map Prod.fst = m.map Prod.fst := by
  unfold margWide at h
  exact forall₂_map_eq Prod.fst Prod.fst (fun p q hpq => hpq.1.symm) h

lemma forall₂_comp_mem {α β γ : Type} {R : α → β → Prop} {S : α → γ → Prop} {T : β → γ → Prop} :
    ∀ {l₀ : List α} {l₁ : List β} {l₂ : List γ},
    (∀ a b c, a ∈ l₀ → R a b → S a c → T b c) →
    List.Forall₂ R l₀ l₁ → List.Forall₂ S l₀ l₂ → List.Forall₂ T l₁ l₂ := by
  intro l₀ l₁ l₂ hT h₁
  induction h₁ generalizing l₂ with
  | nil =>
      intro h₂
      cases h₂
      exact .nil
  | @cons a b t₀ t₁ hab _ ih =>
      intro h₂
      cases h₂ with
      | cons hac h₂' =>
          exact .cons (hT _ _ _ (by simp) hab hac)
            (ih (fun x y z hx => hT x y z (by simp [hx])) h₂')

lemma corners_ne_nil : ∀ (ivs : List IVal), corners ivs ≠ [] := by
  intro ivs
  induction ivs with
  | nil => simp [corners]
  | cons iv rest ih =>
      cases h : corners rest with
      | nil => exact absurd h ih
      | cons v vs => simp [corners, h]

lemma extremePoints_ne_nil (pm : Marg) : extremePoints pm ≠ [] := by
  unfold extremePoints
  intro h
  exact corners_ne_nil _ (by simpa using h)

lemma listProd_ne_nil {α : Type} :
    ∀ {ls : List (List α)}, (∀ l ∈ ls, l ≠ []) → listProd ls ≠ [] := by
  intro ls
  induction ls with
  | nil => intro _; simp [listProd]
  | cons xs rest ih =>
      intro h
      have hxs := h xs (by simp)
      have hrest := ih (fun l hl => h l (by simp [hl]))
      cases xs with
      | nil => exact absurd rfl hxs
      | cons x xs' =>
          cases hr : listProd rest with
          | nil => exact absurd hr hrest
          | cons c cs => simp [listProd, hr]

lemma flatMap_eq_nil_of {α β : Type} {f : α → List β} :
    ∀ {l : List α}, (∀ x ∈ l, f x = []) → l.flatMap f = [] := by
  intro l
  induction l with
  | nil => intro _; rfl
  | cons x xs ih =>
      intro h
      simp only [List.flatMap_cons, h x (by simp), List.nil_append]
      exact ih (fun y hy => h y (by simp [hy]))

lemma flatMap_nil_forall {α β : Type} {f : α → List β} :
    ∀ {l : List α}, l.flatMap f = [] → ∀ x ∈ l, f x = [] := by
  intro l
  induction l with
  | nil => intro _ x hx; cases hx
  | cons y ys ih =>
      intro h x hx
      simp only [List.flatMap_cons] at h
      rcases List.append_eq_nil.1 h with ⟨h₁, h₂⟩
      rcases List.mem_cons.1 hx with rfl | hx
      · exact h₁
      · exact ih h₂ x hx

lemma listProd_nil_of_mem {α : Type} : ∀ {ls : List (List α)}, [] ∈ ls → listProd ls = [] := by
  intro ls
  induction ls with
  | nil => intro h; cases h
  | cons xs rest ih =>
      intro h
      rcases List.mem_cons.1 h with h' | h'
      · rw [← h']
        rfl
      · show xs.flatMap (fun x => (listProd rest).map (fun ys => x :: ys)) = []
        rw [ih h']
        exact flatMap_eq_nil_of (fun x _ => rfl)

lemma allPairs_nil_of_mem {pms : List Marg} (h : [] ∈ pms) :
    allPairs (pms.map extremePoints) = [] := by
  unfold allPairs
  refine flatMap_eq_nil_of ?_
  intro combo hc
  have hsel := listProd_sel hc
  rw [List.forall₂_map_right_iff] at hsel
  rcases forall₂_mem_right hsel h with ⟨d, hd, hdm⟩
  have hdnil : d = [] := by
    have hk := extremePoints_keys hdm
    simpa using hk
  have hmem : [] ∈ combo.map (fun d => d.map Prod.fst) := by
    refine List.mem_map.2 ⟨d, hd, ?_⟩
    simp [hdnil]
  rw [listProd_nil_of_mem hmem]
  rfl

lemma allPairs_nil_mem {pms : List Marg} (h : allPairs (pms.map extremePoints) = []) :
    [] ∈ pms := by
  by_contra hno
  have hne : ∀ pm ∈ pms, pm ≠ [] := fun pm hpm hnil => hno (hnil ▸ hpm)
  have hlp : listProd (pms.map extremePoints) ≠ [] := by
    refine listProd_ne_nil ?_
    intro l hl
    rcases List.mem_map.1 hl with ⟨pm, hpm, rfl⟩
    exact extremePoints_ne_nil pm
  rcases List.exists_mem_of_ne_nil _ hlp with ⟨combo, hc⟩
  have hinner : listProd (combo.map (fun d => d.map Prod.fst)) ≠ [] := by
    refine listProd_ne_nil ?_
    intro ks hks
    rcases List.mem_map.1 hks with ⟨d, hd, rfl⟩
    have hsel := listProd_sel hc
    rw [List.forall₂_map_right_iff] at hsel
    rcases forall₂_mem_left hsel hd with ⟨pm, hpm, hdm⟩
    rw [extremePoints_keys hdm]
    intro hknil
    exact hne pm hpm (by simpa using hknil)
  rcases List.exists_mem_of_ne_nil _ hinner with ⟨asn, ha⟩
  have hpr : (combo, asn) ∈ allPairs (pms.map extremePoints) := mem_allPairs hc ha
  rw [h] at hpr
  cases hpr

lemma margWide_nil_left {pm' : Marg} (h : margWide [] pm') : pm' = [] := by
  unfold margWide at h
  cases h
  rfl

lemma margWide_nil_right {pm : Marg} (h : margWide pm []) : pm = [] := by
  unfold margWide at h
  cases h
  rfl

lemma allPairs_nil_wide {pms pms' : List Marg} (hw : List.Forall₂ margWide pms pms')
    (h : allPairs (pms.map extremePoints) = []) :
    allPairs (pms'.map extremePoints) = [] := by
  rcases forall₂_mem_left hw (allPairs_nil_mem h) with ⟨pm', hpm', hwide⟩
  rw [margWide_nil_left hwide] at hpm'
  exact allPairs_nil_of_mem hpm'

lemma allPairs_nil_wide_rev {pms pms' : List Marg} (hw : List.Forall₂ margWide pms pms')
    (h : allPairs (pms'.map extremePoints) = []) :
    allPairs (pms.map extremePoints) = [] := by
  rcases forall₂_mem_right hw (allPairs_nil_mem h) with ⟨pm, hpm, hwide⟩
  rw [margWide_nil_right hwide] at hpm
  exact allPairs_nil_of_mem hpm

lemma focusComboLow_mem : ∀ {pms' : List Marg} {asn : List String},
    asn.length = pms'.length →
    List.Forall₂ (fun d pm => d ∈ extremePoints pm) (focusComboLow pms' asn) pms' := by
  intro pms'
  induction pms' with
  | nil =>
      intro asn _
      cases asn with
      | nil => exact .nil
      | cons a asnR => exact .nil
  | cons pm' R' ih =>
      intro asn hlen
      cases asn with
      | nil => exact absurd hlen (by simp)
      | cons a asnR =>
          simp only [focusComboLow]
          refine .cons ?_ (ih (by simpa using hlen))
          unfold extremePoints
          exact List.mem_map.2 ⟨lowFocus pm' a, sel_corners (lowFocus_sel pm' a), rfl⟩

lemma focusComboHigh_mem : ∀ {pms' : List Marg} {asn : List String},
    asn.length = pms'.length →
    List.Forall₂ (fun d pm => d ∈ extremePoints pm) (focusComboHigh pms' asn) pms' := by
  intro pms'
  induction pms' with
  | nil =>
      intro asn _
      cases asn with
      | nil => exact .nil
      | cons a asnR => exact .nil
  | cons pm' R' ih =>
      intro asn hlen
      cases asn with
      | nil => exact absurd hlen (by simp)
      | cons a asnR =>
          simp only [focusComboHigh]
          refine .cons ?_ (ih (by simpa using hlen))
          unfold extremePoints
          exact List.mem_map.2 ⟨highFocus pm' a, sel_corners (highFocus_sel pm' a), rfl⟩

lemma focusComboLow_keys {pms' : List Marg} {asn : List String}
    (h : List.Forall₂ (fun a pm => a ∈ pm.map Prod.fst) asn pms') :
    List.Forall₂ (fun a ks => a ∈ ks) asn
      ((focusComboLow pms' asn).map (fun d => d.map Prod.fst)) := by
  induction h with
  | nil => exact .nil
  | @cons a pm' asnR pmsR hmem _ ih =>
      simp only [focusComboLow, List.map_cons]
      refine .cons ?_ ih
      rw [normalizeCorner_keys (by simp [lowFocus])]
      exact hmem

lemma focusComboHigh_keys {pms' : List Marg} {asn : List String}
    (h : List.Forall₂ (fun a pm => a ∈ pm.map Prod.fst) asn pms') :
    List.Forall₂ (fun a ks => a ∈ ks) asn
      ((focusComboHigh pms' asn).map (fun d => d.map Prod.fst)) := by
  induction h with
  | nil => exact .nil
  | @cons a pm' asnR pmsR hmem _ ih =>
      simp only [focusComboHigh, List.map_cons]
      refine .cons ?_ ih
      rw [normalizeCorner_keys (by simp [highFocus])]
      exact hmem

end Credal

namespace Credal

lemma focusLow_head_le {pm pm' : Marg} (hv : margValid pm) (hv' : margValid pm')
    (hwide : margWide pm pm') {d : PDist} (hd : d ∈ extremePoints pm)
    {a : String} (hmem : a ∈ d.map Prod.fst) :
    0 ≤ ((normalizeCorner (pm'.map Prod.fst) (lowFocus pm' a)).lookup a).getD 0 ∧
    ((normalizeCorner (pm'.map Prod.fst) (lowFocus pm' a)).lookup a).getD 0
      ≤ (d.lookup a).getD 0 := by
  have hapm : a ∈ pm.map Prod.fst := by
    rw [← extremePoints_keys hd]
    exact hmem
  rcases mem_split_nodup hv.2 hapm with ⟨pm₁, ivp, pm₂, rfl, hs1, hs2⟩
  unfold margWide at hwide
  rcases forall₂_split_left hwide with ⟨pm₁', q, pm₂', rfl, hw1, hwq, hw2⟩
  obtain ⟨q1, ivp'⟩ := q
  obtain ⟨hq1, hqw⟩ := hwq
  have hq1' : a = q1 := hq1
  subst hq1'
  have hk1 : pm₁'.map Prod.fst = pm₁.map Prod.fst :=
    forall₂_map_eq Prod.fst Prod.fst (fun p q hpq => hpq.1.symm) hw1
  have hk2 : pm₂'.map Prod.fst = pm₂.map Prod.fst :=
    forall₂_map_eq Prod.fst Prod.fst (fun p q hpq => hpq.1.symm) hw2
  have hs1' : a ∉ pm₁'.map Prod.fst := by rw [hk1]; exact hs1
  have hs2' : a ∉ pm₂'.map Prod.fst := by rw [hk2]; exact hs2
  have hval : ∀ p ∈ pm₁ ++ (a, ivp) :: pm₂, 0 ≤ p.2.1 ∧ p.2.1 ≤ p.2.2 := by
    intro p hp
    rcases hv.1 p hp with ⟨h0, h1, -⟩
    exact ⟨h0, h1⟩
  have hval' : ∀ p ∈ pm₁' ++ (a, ivp') :: pm₂', 0 ≤ p.2.1 ∧ p.2.1 ≤ p.2.2 := by
    intro p hp
    rcases hv'.1 p hp with ⟨h0, h1, -⟩
    exact ⟨h0, h1⟩
  simp only [extremePoints, List.mem_map] at hd
  rcases hd with ⟨v, hvmem, rfl⟩
  rcases corner_coord_bounds hs1 hs2 hval hvmem with ⟨c, hc, hlowc, hhighc⟩
  have hcoord' : (normalizeCorner ((pm₁' ++ (a, ivp') :: pm₂').map Prod.fst)
      (lowFocus (pm₁' ++ (a, ivp') :: pm₂') a)).lookup a
      = some (wguard ivp'.1 (lowFocus (pm₁' ++ (a, ivp') :: pm₂') a).sum) := by
    rw [lowFocus_split hs1' hs2']
    rw [show (pm₁' ++ (a, ivp') :: pm₂').map Prod.fst
        = (pm₁'.map Prod.fst) ++ a :: (pm₂'.map Prod.fst) by simp]
    exact normalizeCorner_lookup (by simp) hs1'
  have hmono := lowFocus_coord_mono hs1 hs2 hs1' hs2' hval hval'
      (hw1.imp (fun p q h => ⟨h.1, ivalWide_def h.2⟩))
      (ivalWide_def hqw)
      (hw2.imp (fun p q h => ⟨h.1, ivalWide_def h.2⟩))
  rw [hcoord', hc]
  simp only [Option.getD_some]
  have h0 : 0 ≤ ivp'.1 := by
    rcases hv'.1 (a, ivp') (by simp) with ⟨h0, -, -⟩
    exact h0
  exact ⟨wguard_nonneg h0, le_trans hmono hlowc⟩

lemma focusHigh_head_ge {pm pm' : Marg} (hv : margValid pm) (hv' : margValid pm')
    (hwide : margWide pm pm') {d : PDist} (hd : d ∈ extremePoints pm)
    {a : String} (hmem : a ∈ d.map Prod.fst) :
    0 ≤ (d.lookup a).getD 0 ∧
    (d.lookup a).getD 0
      ≤ ((normalizeCorner (pm'.map Prod.fst) (highFocus pm' a)).lookup a).getD 0 := by
  have hapm : a ∈ pm.map Prod.fst := by
    rw [← extremePoints_keys hd]
    exact hmem
  rcases mem_split_nodup hv.2 hapm with ⟨pm₁, ivp, pm₂, rfl, hs1, hs2⟩
  unfold margWide at hwide
  rcases forall₂_split_left hwide with ⟨pm₁', q, pm₂', rfl, hw1, hwq, hw2⟩
  obtain ⟨q1, ivp'⟩ := q
  obtain ⟨hq1, hqw⟩ := hwq
  have hq1' : a = q1 := hq1
  subst hq1'
  have hk1 : pm₁'.map Prod.fst = pm₁.map Prod.fst :=
    forall₂_map_eq Prod.fst Prod.fst (fun p q hpq => hpq.1.symm) hw1
  have hk2 : pm₂'.map Prod.fst = pm₂.map Prod.fst :=
    forall₂_map_eq Prod.fst Prod.fst (fun p q hpq => hpq.1.symm) hw2
  have hs1' : a ∉ pm₁'.map Prod.fst := by rw [hk1]; exact hs1
  have hs2' : a ∉ pm₂'.map Prod.fst := by rw [hk2]; exact hs2
  have hval : ∀ p ∈ pm₁ ++ (a, ivp) :: pm₂, 0 ≤ p.2.1 ∧ p.2.1 ≤ p.2.2 := by
    intro p hp
    rcases hv.1 p hp with ⟨h0, h1, -⟩
    exact ⟨h0, h1⟩
  have hval' : ∀ p ∈ pm₁' ++ (a, ivp') :: pm₂', 0 ≤ p.2.1 ∧ p.2.1 ≤ p.2.2 := by
    intro p hp
    rcases hv'.1 p hp with ⟨h0, h1, -⟩
    exact ⟨h0, h1⟩
  simp only [extremePoints, List.mem_map] at hd
  rcases hd with ⟨v, hvmem, rfl⟩
  rcases corner_coord_bounds hs1 hs2 hval hvmem with ⟨c, hc, hlowc, hhighc⟩
  have hcoord' : (normalizeCorner ((pm₁' ++ (a, ivp') :: pm₂').map Prod.fst)
      (highFocus (pm₁' ++ (a, ivp') :: pm₂') a)).lookup a
      = some (wguard ivp'.2 (highFocus (pm₁' ++ (a, ivp') :: pm₂') a).sum) := by
    rw [highFocus_split hs1' hs2']
    rw [show (pm₁' ++ (a, ivp') :: pm₂').map Prod.fst
        = (pm₁'.map Prod.fst) ++ a :: (pm₂'.map Prod.fst) by simp]
    exact normalizeCorner_lookup (by simp) hs1'
  have hmono := highFocus_coord_mono hs1 hs2 hs1' hs2' hval hval'
      (hw1.imp (fun p q h => ⟨h.1, ivalWide_def h.2⟩))
      (ivalWide_def hqw)
      (hw2.imp (fun p q h => ⟨h.1, ivalWide_def h.2⟩))
  rw [hcoord', hc]
  simp only [Option.getD_some]
  have h0 : 0 ≤ ivp.1 := by
    rcases hv.1 (a, ivp) (by simp) with ⟨h0, -, -⟩
    exact h0
  exact ⟨le_trans (wguard_nonneg h0) hlowc, le_trans hhighc hmono⟩

lemma jointProb_focusLow_le : ∀ {asn : List String} {combo : List PDist} {pms pms' : List Marg},
    (∀ pm ∈ pms, margValid pm) → (∀ pm ∈ pms', margValid pm) →
    List.Forall₂ margWide pms pms' →
    List.Forall₂ (fun d pm => d ∈ extremePoints pm) combo pms →
    List.Forall₂ (fun a d => a ∈ d.map Prod.fst) asn combo →
    0 ≤ jointProb (focusComboLow pms' asn) asn ∧
    jointProb (focusComboLow pms' asn) asn ≤ jointProb combo asn := by
  intro asn
  induction asn with
  | nil =>
      intro combo pms pms' _ _ hw hcombo hasn
      cases hasn
      cases hcombo
      cases hw
      constructor
      · norm_num [jointProb, focusComboLow]
      · norm_num [jointProb, focusComboLow]
  | cons a asnR ih =>
      intro combo pms pms' hv hv' hw hcombo hasn
      cases hasn with
      | @cons _ d _ comboR hmem hasnR =>
      cases hcombo with
      | @cons _ pm _ pmsR hd hcomboR =>
      cases hw with
      | @cons _ pm' _ pmsR' hwpm hwR =>
      obtain ⟨ih0, ihle⟩ := ih (fun x hx => hv x (by simp [hx]))
        (fun x hx => hv' x (by simp [hx])) hwR hcomboR hasnR
      obtain ⟨h0head, hheadle⟩ := focusLow_head_le (hv pm (by simp)) (hv' pm' (by simp))
        hwpm hd hmem
      simp only [focusComboLow]
      rw [jointProb_cons, jointProb_cons]
      constructor
      · exact mul_nonneg h0head ih0
      · exact mul_le_mul hheadle ihle ih0 (le_trans h0head hheadle)

lemma jointProb_focusHigh_ge : ∀ {asn : List String} {combo : List PDist} {pms pms' : List Marg},
    (∀ pm ∈ pms, margValid pm) → (∀ pm ∈ pms', margValid pm) →
    List.Forall₂ margWide pms pms' →
    List.Forall₂ (fun d pm => d ∈ extremePoints pm) combo pms →
    List.Forall₂ (fun a d => a ∈ d.map Prod.fst) asn combo →
    0 ≤ jointProb combo asn ∧
    jointProb combo asn ≤ jointProb (focusComboHigh pms' asn) asn := by
  intro asn
  induction asn with
  | nil =>
      intro combo pms pms' _ _ hw hcombo hasn
      cases hasn
      cases hcombo
      cases hw
      constructor
      · norm_num [jointProb, focusComboHigh]
      · norm_num [jointProb, focusComboHigh]
  | cons a asnR ih =>
      intro combo pms pms' hv hv' hw hcombo hasn
      cases hasn with
      | @cons _ d _ comboR hmem hasnR =>
      cases hcombo with
      | @cons _ pm _ pmsR hd hcomboR =>
      cases hw with
      | @cons _ pm' _ pmsR' hwpm hwR =>
      obtain ⟨ihd0, ihge⟩ := ih (fun x hx => hv x (by simp [hx]))
        (fun x hx => hv' x (by simp [hx])) hwR hcomboR hasnR
      obtain ⟨h0d, hdge⟩ := focusHigh_head_ge (hv pm (by simp)) (hv' pm' (by simp))
        hwpm hd hmem
      simp only [focusComboHigh]
      rw [jointProb_cons, jointProb_cons]
      constructor
      · exact mul_nonneg h0d ihd0
      · exact mul_le_mul hdge ihge ihd0 (le_trans h0d hdge)

lemma foldLow_mono {t t' : CTable} (htv' : tableValid t') (htw : tableWide t t')
    {pms pms' : List Marg}
    (hpmv : ∀ pm ∈ pms, margValid pm) (hpmv' : ∀ pm ∈ pms', margValid pm)
    (hw : List.Forall₂ margWide pms pms') {s : String}
    (hlk : ∀ pr ∈ allPairs (pms.map extremePoints),
      ∃ entry, t.lookup pr.2 = some entry ∧ ∃ iv, entry.lookup s = some iv)
    {x x' : Rat}
    (hx : foldLow t s none (allPairs (pms.map extremePoints)) = some x)
    (hx' : foldLow t' s none (allPairs (pms'.map extremePoints)) = some x') :
    x' ≤ x := by
  rcases foldLow_attain t s hx with hbad | ⟨pr, hpr, rfl⟩
  · cases hbad
  obtain ⟨combo, asn⟩ := pr
  obtain ⟨hcombo, hasn⟩ := allPairs_mem hpr
  have hcsel := listProd_sel hcombo
  rw [List.forall₂_map_right_iff] at hcsel
  have hasel := listProd_sel hasn
  rw [List.forall₂_map_right_iff] at hasel
  rcases hlk (combo, asn) hpr with ⟨entry, hlkt, iv, hiv⟩
  unfold tableWide at htw
  rcases forall₂_lookup htw hlkt with ⟨entry', hlkt', hww⟩
  unfold margWide at hww
  rcases forall₂_lookup hww hiv with ⟨iv', hiv', hivw⟩
  have hlen : asn.length = pms'.length := by
    rw [hasel.length_eq, hcsel.length_eq, hw.length_eq]
  have hanpms : List.Forall₂ (fun a pm => a ∈ pm.map Prod.fst) asn pms :=
    forall₂_comp (fun a d pm had hdp => by rw [← extremePoints_keys hdp]; exact had) hasel hcsel
  have hanpms' : List.Forall₂ (fun a pm => a ∈ pm.map Prod.fst) asn pms' :=
    forall₂_comp (fun a pm pm' hap hwp => by rw [margWide_keys hwp]; exact hap) hanpms hw
  have hpr' : (focusComboLow pms' asn, asn) ∈ allPairs (pms'.map extremePoints) := by
    refine mem_allPairs ?_ ?_
    · refine sel_listProd ?_
      rw [List.forall₂_map_right_iff]
      exact focusComboLow_mem hlen
    · exact sel_listProd (focusComboLow_keys hanpms')
  have hxle := foldLow_le_contrib t' s hx' _ hpr'
  have hcl : contribLow t s (combo, asn) = jointProb combo asn * iv.1 := by
    simp [contribLow, hlkt, hiv]
  have hcl' : contribLow t' s (focusComboLow pms' asn, asn)
      = jointProb (focusComboLow pms' asn) asn * iv'.1 := by
    simp [contribLow, hlkt', hiv']
  rw [hcl]
  refine le_trans hxle ?_
  rw [hcl']
  obtain ⟨hjp0, hjple⟩ := jointProb_focusLow_le hpmv hpmv' hw hcsel hasel
  have hiv'0 : 0 ≤ iv'.1 := by
    have hev := htv' (asn, entry') (lookup_mem hlkt')
    rcases hev.1 (s, iv') (lookup_mem hiv') with ⟨h0, -, -⟩
    exact h0
  exact mul_le_mul hjple (ivalWide_def hivw).1 hiv'0 (le_trans hjp0 hjple)

lemma foldHigh_mono {t t' : CTable} (htv : tableValid t) (htw : tableWide t t')
    {pms pms' : List Marg}
    (hpmv : ∀ pm ∈ pms, margValid pm) (hpmv' : ∀ pm ∈ pms', margValid pm)
    (hw : List.Forall₂ margWide pms pms') {s : String}
    (hlk : ∀ pr ∈ allPairs (pms.map extremePoints),
      ∃ entry, t.lookup pr.2 = some entry ∧ ∃ iv, entry.lookup s = some iv)
    {x x' : Rat}
    (hx : foldHigh t s none (allPairs (pms.map extremePoints)) = some x)
    (hx' : foldHigh t' s none (allPairs (pms'.map extremePoints)) = some x') :
    x ≤ x' := by
  rcases foldHigh_attain t s hx with hbad | ⟨pr, hpr, rfl⟩
  · cases hbad
  obtain ⟨combo, asn⟩ := pr
  obtain ⟨hcombo, hasn⟩ := allPairs_mem hpr
  have hcsel := listProd_sel hcombo
  rw [List.forall₂_map_right_iff] at hcsel
  have hasel := listProd_sel hasn
  rw [List.forall₂_map_right_iff] at hasel
  rcases hlk (combo, asn) hpr with ⟨entry, hlkt, iv, hiv⟩
  unfold tableWide at htw
  rcases forall₂_lookup htw hlkt with ⟨entry', hlkt', hww⟩
  unfold margWide at hww
  rcases forall₂_lookup hww hiv with ⟨iv', hiv', hivw⟩
  have hlen : asn.length = pms'.length := by
    rw [hasel.length_eq, hcsel.length_eq, hw.length_eq]
  have hanpms : List.Forall₂ (fun a pm => a ∈ pm.map Prod.fst) asn pms :=
    forall₂_comp (fun a d pm had hdp => by rw [← extremePoints_keys hdp]; exact had) hasel hcsel
  have hanpms' : List.Forall₂ (fun a pm => a ∈ pm.map Prod.fst) asn pms' :=
    forall₂_comp (fun a pm pm' hap hwp => by rw [margWide_keys hwp]; exact hap) hanpms hw
  have hpr' : (focusComboHigh pms' asn, asn) ∈ allPairs (pms'.map extremePoints) := by
    refine mem_allPairs ?_ ?_
    · refine sel_listProd ?_
      rw [List.forall₂_map_right_iff]
      exact focusComboHigh_mem hlen
    · exact sel_listProd (focusComboHigh_keys hanpms')
  have hxge := foldHigh_ge_contrib t' s hx' _ hpr'
  have hch : contribHigh t s (combo, asn) = jointProb combo asn * iv.2 := by
    simp [contribHigh, hlkt, hiv]
  have hch' : contribHigh t' s (focusComboHigh pms' asn, asn)
      = jointProb (focusComboHigh pms' asn) asn * iv'.2 := by
    simp [contribHigh, hlkt', hiv']
  rw [hch]
  refine le_trans ?_ hxge
  rw [hch']
  obtain ⟨hjp0, hjpge⟩ := jointProb_focusHigh_ge hpmv hpmv' hw hcsel hasel
  have hiv20 : 0 ≤ iv.2 := by
    have hev := htv (asn, entry) (lookup_mem hlkt)
    rcases hev.1 (s, iv) (lookup_mem hiv) with ⟨h0, h1, -⟩
    exact le_trans h0 h1
  exact mul_le_mul hjpge (ivalWide_def hivw).2 hiv20 (le_trans hjp0 hjpge)

end Credal

namespace Credal

lemma marginalList_wide : ∀ {ps ps' : List CNode},
    (∀ p ∈ ps, nodeValid p → ∀ n', nodeValid n' → nodeWide p n' →
      ∀ m m', computeMarginal p = some m → computeMarginal n' = some m' → margWide m m') →
    nodesValid ps → nodesValid ps' → nodesWide ps ps' →
    ∀ {pms pms' : List Marg}, computeMarginalList ps = some pms →
    computeMarginalList ps' = some pms' →
    List.Forall₂ margWide pms pms' := by
  intro ps
  induction ps with
  | nil =>
      intro ps' _ _ _ hwide pms pms' h h'
      cases ps' with
      | nil =>
          simp only [computeMarginalList, Option.pure_def, Option.some.injEq] at h h'
          subst h
          subst h'
          exact .nil
      | cons q qs => exact absurd hwide (by simp [nodesWide])
  | cons p psR ih =>
      intro ps' hrec hv hv' hwide pms pms' h h'
      cases ps' with
      | nil => exact absurd hwide (by simp [nodesWide])
      | cons q qs =>
          simp only [nodesWide] at hwide
          simp only [nodesValid] at hv hv'
          simp only [computeMarginalList, Option.bind_eq_bind] at h h'
          cases hm : computeMarginal p with
          | none => rw [hm] at h; simp at h
          | some m =>
          rw [hm] at h
          simp only [Option.some_bind] at h
          cases hr : computeMarginalList psR with
          | none => rw [hr] at h; simp at h
          | some msR =>
          rw [hr] at h
          simp only [Option.bind_eq_bind, Option.some_bind, Option.pure_def,
            Option.some.injEq] at h
          subst h
          cases hm' : computeMarginal q with
          | none => rw [hm'] at h'; simp at h'
          | some m' =>
          rw [hm'] at h'
          simp only [Option.some_bind] at h'
          cases hr' : computeMarginalList qs with
          | none => rw [hr'] at h'; simp at h'
          | some msR' =>
          rw [hr'] at h'
          simp only [Option.bind_eq_bind, Option.some_bind, Option.pure_def,
            Option.some.injEq] at h'
          subst h'
          refine .cons ?_ ?_
          · exact hrec p (by simp) hv.1 q hv'.1 hwide.1 m m' hm hm'
          · exact ih (fun x hx => hrec x (by simp [hx])) hv.2 hv'.2 hwide.2 hr hr'

lemma marginal_wide_core : ∀ (n : CNode), nodeValid n →
    ∀ n', nodeValid n' → nodeWide n n' →
    ∀ m m', computeMarginal n = some m → computeMarginal n' = some m' → margWide m m' := by
  intro n
  induction n using cnode_ind with
  | mk nm ps t ih =>
    intro hv n' hv' hwide m m' hm hm'
    cases n' with
    | mk nm' ps' t' =>
    simp only [nodeWide] at hwide
    obtain ⟨hnm, htw, hpw⟩ := hwide
    simp only [nodeValid] at hv hv'
    cases ps with
    | nil =>
        cases ps' with
        | cons q qs => exact absurd hpw (by simp [nodesWide])
        | nil =>
            simp only [computeMarginal] at hm hm'
            unfold tableWide at htw
            rcases forall₂_lookup htw hm with ⟨m'', hlk', hww⟩
            rw [hm'] at hlk'
            simp only [Option.some.injEq] at hlk'
            subst hlk'
            exact hww
    | cons p psR =>
        cases ps' with
        | nil => exact absurd hpw (by simp [nodesWide])
        | cons q qs =>
        simp only [computeMarginal, Option.bind_eq_bind] at hm hm'
        cases hpl : computeMarginalList (p :: psR) with
        | none => rw [hpl] at hm; simp at hm
        | some pms =>
        rw [hpl] at hm
        simp only [Option.some_bind] at hm
        cases hhd : t.head? with
        | none => rw [hhd] at hm; simp at hm
        | some firstRow =>
        rw [hhd] at hm
        simp only [Option.some_bind] at hm
        cases hfs : foldSteps t ((firstRow.2.map Prod.fst).map (fun s => (s, none, none)))
            (allPairs (pms.map extremePoints)) with
        | none => rw [hfs] at hm; simp at hm
        | some final =>
        rw [hfs] at hm
        simp only [Option.bind_eq_bind, Option.some_bind, Option.pure_def,
          Option.some.injEq] at hm
        subst hm
        cases hpl' : computeMarginalList (q :: qs) with
        | none => rw [hpl'] at hm'; simp at hm'
        | some pms' =>
        rw [hpl'] at hm'
        simp only [Option.some_bind] at hm'
        cases hhd' : t'.head? with
        | none => rw [hhd'] at hm'; simp at hm'
        | some firstRow' =>
        rw [hhd'] at hm'
        simp only [Option.some_bind] at hm'
        cases hfs' : foldSteps t' ((firstRow'.2.map Prod.fst).map (fun s => (s, none, none)))
            (allPairs (pms'.map extremePoints)) with
        | none => rw [hfs'] at hm'; simp at hm'
        | some final' =>
        rw [hfs'] at hm'
        simp only [Option.bind_eq_bind, Option.some_bind, Option.pure_def,
          Option.some.injEq] at hm'
        subst hm'
        have hpmv : ∀ pm ∈ pms, margValid pm := by
          intro pm hpm
          rcases forall₂_mem_right (computeMarginalList_forall₂ hpl) hpm with ⟨n₀, hn₀, hcm⟩
          exact marginal_valid_core n₀ (nodesValid_mem hv.2 n₀ hn₀) pm hcm
        have hpmv' : ∀ pm ∈ pms', margValid pm := by
          intro pm hpm
          rcases forall₂_mem_right (computeMarginalList_forall₂ hpl') hpm with ⟨n₀, hn₀, hcm⟩
          exact marginal_valid_core n₀ (nodesValid_mem hv'.2 n₀ hn₀) pm hcm
        have hwpm : List.Forall₂ margWide pms pms' :=
          marginalList_wide ih hv.2 hv'.2 hpw hpl hpl'
        unfold tableWide at htw
        rcases forall₂_head? htw hhd with ⟨row', hhd'', hrw⟩
        rw [hhd'] at hhd''
        simp only [Option.some.injEq] at hhd''
        subst hhd''
        have hkeys : firstRow'.2.map Prod.fst = firstRow.2.map Prod.fst := margWide_keys hrw.2
        have hdec := foldSteps_decompose t hfs
        have hdec' := foldSteps_decompose t' hfs'
        rw [hkeys] at hdec'
        have hlks := foldSteps_lookups t hfs
        unfold margWide
        rw [List.forall₂_map_left_iff, List.forall₂_map_right_iff]
        refine forall₂_comp_mem ?_ hdec hdec'
        intro e f1 f2 he hr1 hr2
        rcases List.mem_map.1 he with ⟨s, hs, rfl⟩
        obtain ⟨hk1, hl1, hh1⟩ := hr1
        obtain ⟨hk2, hl2, hh2⟩ := hr2
        have hk1' : f1.1 = s := hk1
        have hk2' : f2.1 = s := hk2
        have hl1' : f1.2.1 = foldLow t s none (allPairs (pms.map extremePoints)) := hl1
        have hh1' : f1.2.2 = foldHigh t s none (allPairs (pms.map extremePoints)) := hh1
        have hl2' : f2.2.1 = foldLow t' s none (allPairs (pms'.map extremePoints)) := hl2
        have hh2' : f2.2.2 = foldHigh t' s none (allPairs (pms'.map extremePoints)) := hh2
        have hlk : ∀ pr ∈ allPairs (pms.map extremePoints),
            ∃ entry, t.lookup pr.2 = some entry ∧ ∃ iv, entry.lookup s = some iv := by
          intro pr hpr
          rcases hlks pr hpr with ⟨entry, hlkt, hall⟩
          rcases hall (s, none, none) (List.mem_map_of_mem _ hs) with ⟨iv, hiv⟩
          exact ⟨entry, hlkt, iv, hiv⟩
        refine ⟨hk1'.trans hk2'.symm, ?_, ?_⟩
        · show f2.2.1.getD 0 ≤ f1.2.1.getD 0
          rw [hl1', hl2']
          cases hcase : foldLow t s none (allPairs (pms.map extremePoints)) with
          | none =>
              have hnil := (foldLow_none t s hcase).1
              have hnil' := allPairs_nil_wide hwpm hnil
              rw [hnil']
              simp [foldLow]
          | some x =>
              cases hcase' : foldLow t' s none (allPairs (pms'.map extremePoints)) with
              | none =>
                  have hnil' := (foldLow_none t' s hcase').1
                  have hnil := allPairs_nil_wide_rev hwpm hnil'
                  rw [hnil] at hcase
                  simp [foldLow] at hcase
              | some x' =>
                  simp only [Option.getD_some]
                  exact foldLow_mono hv'.1 htw hpmv hpmv' hwpm hlk hcase hcase'
        · show f1.2.2.getD 1 ≤ f2.2.2.getD 1
          rw [hh1', hh2']
          cases hcase : foldHigh t s none (allPairs (pms.map extremePoints)) with
          | none =>
              have hnil := (foldHigh_none t s hcase).1
              have hnil' := allPairs_nil_wide hwpm hnil
              rw [hnil']
              simp [foldHigh]
          | some x =>
              cases hcase' : foldHigh t' s none (allPairs (pms'.map extremePoints)) with
              | none =>
                  have hnil' := (foldHigh_none t' s hcase').1
                  have hnil := allPairs_nil_wide_rev hwpm hnil'
                  rw [hnil] at hcase
                  simp [foldHigh] at hcase
              | some x' =>
                  simp only [Option.getD_some]
                  exact foldHigh_mono hv.1 htw hpmv hpmv' hwpm hlk hcase hcase'

end Credal

namespace Credal

lemma tableWide_refl (t : CTable) : tableWide t t := by
  refine List.forall₂_same.2 (fun r _ => ⟨rfl, ?_⟩)
  exact List.forall₂_same.2 (fun p _ => ⟨rfl, le_refl _, le_refl _⟩)

/-- C4: widening every interval in a node's own credal table or in any
ancestor's table, with both networks remaining valid, never narrows the
computed marginal: for every state the widened network's lower bound is at
most the original lower bound and its upper bound is at least the original
upper bound. -/
theorem computeMarginal_monotone (n n' : CNode) (hv : nodeValid n) (hv' : nodeValid n')
    (hw : nodeWide n n') (m m' : Marg)
    (hm : computeMarginal n = some m) (hm' : computeMarginal n' = some m') :
    margWide m m' :=
  marginal_wide_core n hv n' hv' hw m m' hm hm'

/-- C4 witness: widening the chain root's point intervals from 1/2 to
[2/5, 3/5] widens node B's computed marginal from [0, 1/2] to [0, 3/5]. -/
theorem computeMarginal_monotone_witness :
    nodeWide chainB chainB2
    ∧ margWide [("b1", ((0 : Rat), (1/2 : Rat))), ("b2", (0, 1/2))]
        [("b1", ((0 : Rat), (3/5 : Rat))), ("b2", (0, 3/5))] := by
  have hv : nodeValid chainB := by
    simp only [chainB, chainA, chainBTable, nodeValid, nodesValid, tableValid, margValid,
      ivalValid]
    norm_num
    refine ⟨⟨⟨?_, by decide⟩, ⟨?_, by decide⟩⟩, ⟨?_, by decide⟩⟩ <;>
      rintro a b c (⟨rfl, rfl, rfl⟩ | ⟨rfl, rfl, rfl⟩) <;> norm_num
  have hv2 : nodeValid chainB2 := by
    simp only [chainB2, chainA2, chainBTable, nodeValid, nodesValid, tableValid, margValid,
      ivalValid]
    norm_num
    refine ⟨⟨⟨?_, by decide⟩, ⟨?_, by decide⟩⟩, ⟨?_, by decide⟩⟩ <;>
      rintro a b c (⟨rfl, rfl, rfl⟩ | ⟨rfl, rfl, rfl⟩) <;> norm_num
  have hw : nodeWide chainB chainB2 := by
    simp only [chainB, chainB2, nodeWide, nodesWide]
    refine ⟨trivial, tableWide_refl _, ?_, trivial⟩
    simp only [chainA, chainA2, nodeWide, nodesWide]
    refine ⟨trivial, ?_, trivial⟩
    unfold tableWide
    refine .cons ⟨rfl, ?_⟩ .nil
    unfold margWide
    refine .cons ⟨rfl, ?_, ?_⟩ (.cons ⟨rfl, ?_, ?_⟩ .nil) <;> norm_num
  exact ⟨hw, computeMarginal_monotone chainB chainB2 hv hv2 hw _ _ chainB_eval chainB2_eval⟩

end Credal
